import Mathlib

/-!
Verification of the chapter codec of the perfectoimperfecto repository.

The Go sources are embedded shallowly:
* `generator.go` (the unnamed file): `generateChapterHTML`, `generateQuestionHTML`,
  `generateConditionalJS`, `hasCheckboxQuestions`, `hasConditionalQuestions`.
* `chapter-manager/parser.go`: the regex-driven decoder (`parseChapterFile`,
  `extractQuestions`, `detectConditionals`, `findConditionalParent`,
  `extractChapterNumber`, ...).  The concrete regular expressions of the source
  are mirrored by a small backtracking matcher with Go's (PCRE-style,
  leftmost-first) preference semantics, which is what `regexp` implements for
  these patterns.
* `chapter-manager/main.go`: the remove-question renumbering edit.
* `chapter-manager/models.go`: the data model and per-language defaults.

File I/O (reading the chapter file, globbing the directory) is the caller's
concern in the source; the embedding takes the file's base name and content as
explicit arguments.
-/

/-! ### Go string primitives (package `strings`, `html`, `strconv`, `fmt`) -/

/-- `strings.Index` on char lists: byte/char index of the first occurrence of
`sub`, or `none` (Go returns -1). -/
def indexGoAux (sub : List Char) : List Char → Nat → Option Nat
  | s, pos =>
    if sub.isPrefixOf s then some pos
    else
      match s with
      | [] => none
      | _ :: t => indexGoAux sub t (pos + 1)

/-- `strings.Index(s, sub)`. -/
def indexGo (s sub : String) : Option Nat :=
  indexGoAux sub.data s.data 0

/-- `strings.Contains(s, sub)`. -/
def containsGo (s sub : String) : Bool :=
  (indexGo s sub).isSome

/-- `strings.HasPrefix(s, pre)`. -/
def hasPrefixGo (s pre : String) : Bool :=
  pre.data.isPrefixOf s.data

/-- `strings.TrimPrefix(s, pre)`. -/
def trimPrefixGo (s pre : String) : String :=
  if hasPrefixGo s pre then ⟨s.data.drop pre.data.length⟩ else s

/-- The white-space set of `unicode.IsSpace` restricted to ASCII, which is all
the generator ever emits at the trimmed positions. -/
def isSpaceGo (c : Char) : Bool :=
  c == ' ' || c == '\t' || c == '\n' || c == '\r' || c == '\x0b' || c == '\x0c'

/-- `strings.TrimSpace`. -/
def trimSpaceGo (s : String) : String :=
  ⟨((s.data.dropWhile isSpaceGo).reverse.dropWhile isSpaceGo).reverse⟩

/-- `strings.ReplaceAll(s, old, new)` on char lists, left-to-right,
non-overlapping (`old` is non-empty at every call site).  The counter `k`
skips the remainder of an already-consumed match, keeping the recursion
structural. -/
def replaceSkip (old new : List Char) : List Char → Nat → List Char
  | [], _ => []
  | _ :: t, k + 1 => replaceSkip old new t k
  | c :: t, 0 =>
    if old.isPrefixOf (c :: t) && !old.isEmpty then
      new ++ replaceSkip old new t (old.length - 1)
    else
      c :: replaceSkip old new t 0

/-- `strings.ReplaceAll`. -/
def replaceAllGo (s old new : String) : String :=
  ⟨replaceSkip old.data new.data s.data 0⟩

/-- `strings.ToUpper` (ASCII case mapping; it is only applied to ids `q<N>`). -/
def toUpperGo (s : String) : String :=
  ⟨s.data.map Char.toUpper⟩

/-- One character of `html.EscapeString`: Go escapes `&`, `'`, `<`, `>`, `"`
to `&amp;`, `&#39;`, `&lt;`, `&gt;`, `&#34;`. -/
def escapeCharGo (c : Char) : List Char :=
  if c = '&' then "&amp;".data
  else if c = '\x27' then "&#39;".data
  else if c = '<' then "&lt;".data
  else if c = '>' then "&gt;".data
  else if c = '"' then "&#34;".data
  else [c]

/-- `html.EscapeString`. -/
def htmlEscapeString (s : String) : String :=
  ⟨(s.data.map escapeCharGo).flatten⟩

/-- `strings.ReplaceAll(s, quote, backslash-quote)`: the metadata-script
string-literal escaping. -/
def jsEscape (s : String) : String :=
  replaceAllGo s "\"" "\\\""

/-- The decimal digits of a natural number, most significant first, with
explicit fuel (any fuel above the number gives the same digits). -/
def natDigitsCore (fuel : Nat) (n : Nat) : List Char :=
  match fuel with
  | 0 => []
  | fuel + 1 =>
    if n < 10 then [Nat.digitChar n]
    else natDigitsCore fuel (n / 10) ++ [Nat.digitChar (n % 10)]

/-- The decimal digits of a natural number, most significant first
(`strconv.Itoa` / `fmt.Sprintf` `%d` on a non-negative value). -/
def natDigits (n : Nat) : List Char :=
  natDigitsCore (n + 1) n

/-- `fmt.Sprintf("%d", n)` for a non-negative `n`. -/
def natToStr (n : Nat) : String :=
  ⟨natDigits n⟩

/-- `fmt.Sprintf("%d", i)` on a Go `int`. -/
def intToStr (i : Int) : String :=
  if i < 0 then "-" ++ natToStr i.natAbs else natToStr i.toNat

/-- Numeric value of a decimal digit character. -/
def digitVal (c : Char) : Nat := c.toNat - 48

/-- Value of a big-endian digit string. -/
def digitsVal (l : List Char) : Nat :=
  l.foldl (fun a c => 10 * a + digitVal c) 0

/-- `strconv.Atoi` = `strconv.ParseInt(s, 10, 0)` on a 64-bit platform, on
the character list: optional sign, at least one digit, nothing else, 64-bit
range check.  `none` models a non-nil error (the callers only test
`err != nil`). -/
def atoiGoL : List Char → Option Int
  | [] => none
  | c :: rest =>
    let ds := if c = '-' ∨ c = '+' then rest else c :: rest
    if ds.isEmpty then none
    else if ds.all Char.isDigit then
      let v := digitsVal ds
      if c = '-' then
        if v ≤ 2 ^ 63 then some (-(v : Int)) else none
      else
        if v ≤ 2 ^ 63 - 1 then some (v : Int) else none
    else none

/-- `strconv.Atoi`. -/
def atoiGo (s : String) : Option Int :=
  atoiGoL s.data

/-! ### A backtracking matcher for the concrete regular expressions of parser.go

Each Go pattern is a sequence of: literal runs, single-character classes under
`*`/`+` (greedy or lazy), one literal alternation, capture groups of such
simple items, and the `$` anchor.  Go's `regexp` gives these patterns
PCRE-style leftmost-first submatch semantics, which is exactly what a
backtracking matcher produces. -/

/-- A simple (group-free) regex item. -/
inductive SItem where
  | lit (s : List Char)
  | cls (p : Char → Bool) (min1 : Bool) (lazy : Bool)
  | alt (ss : List (List Char))

/-- A top-level regex item: simple, capture group of simple items, or `$`. -/
inductive RItem where
  | simple (it : SItem)
  | grp (its : List SItem)
  | eos

/-- First success of `f` over a list of candidates (backtracking order). -/
def firstSome (f : α → Option β) : List α → Option β
  | [] => none
  | a :: t =>
    match f a with
    | some r => some r
    | none => firstSome f t

/-- `fuel` descending counts starting at `hi`. -/
def countsDownAux : Nat → Nat → List Nat
  | 0, _ => []
  | f + 1, hi => hi :: countsDownAux f (hi - 1)

/-- `fuel` ascending counts starting at `lo`. -/
def countsUpAux : Nat → Nat → List Nat
  | 0, _ => []
  | f + 1, lo => lo :: countsUpAux f (lo + 1)

/-- Candidate repetition counts for a class: `lo..run`, lazy ascending,
greedy descending. -/
def countsFor (run lo : Nat) (lazy : Bool) : List Nat :=
  if lazy then countsUpAux (run + 1 - lo) lo else countsDownAux (run + 1 - lo) run

/-- Match a sequence of simple items against a prefix of `s`, calling the
continuation `k` on every candidate rest until it succeeds. -/
def matchSimple (its : List SItem) (s : List Char) (k : List Char → Option β) :
    Option β :=
  match its with
  | [] => k s
  | it :: rest =>
    match it with
    | .lit l => if l.isPrefixOf s then matchSimple rest (s.drop l.length) k else none
    | .cls p min1 lazy =>
      let run := (s.takeWhile p).length
      let lo := if min1 then 1 else 0
      if run < lo then none
      else firstSome (fun n => matchSimple rest (s.drop n) k) (countsFor run lo lazy)
    | .alt ss =>
      firstSome
        (fun l =>
          if l.isPrefixOf s then matchSimple rest (s.drop l.length) k else none)
        ss

/-- Match a full pattern against a prefix of `s`, accumulating the captured
groups in order. -/
def matchR (items : List RItem) (s : List Char)
    (k : List Char → List (List Char) → Option β) (gacc : List (List Char)) :
    Option β :=
  match items with
  | [] => k s gacc
  | .eos :: rest => if s.isEmpty then matchR rest s k gacc else none
  | .simple it :: rest => matchSimple [it] s fun s2 => matchR rest s2 k gacc
  | .grp its :: rest =>
    matchSimple its s fun s2 =>
      matchR rest s2 k (gacc ++ [s.take (s.length - s2.length)])

/-- Match the pattern at the start of `s`: `(match length, groups)`. -/
def matchHere (pat : List RItem) (s : List Char) :
    Option (Nat × List (List Char)) :=
  matchR pat s (fun rest gs => some (s.length - rest.length, gs)) []

/-- Leftmost match search from absolute position `pos` (`s` is the suffix of
the subject starting there): `(start, length, groups)`. -/
def findFrom (pat : List RItem) (s : List Char) (pos : Nat) :
    Option (Nat × Nat × List (List Char)) :=
  match matchHere pat s with
  | some (len, gs) => some (pos, len, gs)
  | none =>
    match s with
    | [] => none
    | _ :: t => findFrom pat t (pos + 1)

/-- `Regexp.FindStringSubmatch`-style search: leftmost match with groups. -/
def reFind (pat : List RItem) (s : String) :
    Option (Nat × Nat × List (List Char)) :=
  findFrom pat s.data 0

/-- First capture group of the leftmost match, as a string. -/
def reFindGroup1 (pat : List RItem) (s : String) : Option String :=
  (reFind pat s).map fun r => ⟨r.2.2.headD []⟩

/-- `Regexp.MatchString`. -/
def reMatch (pat : List RItem) (s : String) : Bool :=
  (reFind pat s).isSome

/-- `Regexp.FindAllStringSubmatchIndex`: non-overlapping leftmost matches, the
next search resuming at the end of the previous match.  All patterns this is
used with match at least one character, so the fuel never runs out. -/
def findAllAux (pat : List RItem) (s : List Char) (pos : Nat) :
    Nat → List (Nat × Nat × List (List Char))
  | 0 => []
  | fuel + 1 =>
    match findFrom pat s pos with
    | none => []
    | some (st, len, gs) =>
      (st, len, gs) :: findAllAux pat (s.drop (st - pos + len)) (st + len) fuel

/-- All matches of `pat` in `s`, with start index, length and groups. -/
def reFindAll (pat : List RItem) (s : String) :
    List (Nat × Nat × List (List Char)) :=
  findAllAux pat s.data 0 (s.data.length + 1)

/-! Items shared by several patterns. -/

/-- `\s` of RE2: `[\t\n\f\r ]`. -/
def isSpaceRE (c : Char) : Bool :=
  c == '\t' || c == '\n' || c == '\x0c' || c == '\r' || c == ' '

/-- `\s*` -/
def spaceStar : SItem := .cls isSpaceRE false false

/-- `\d+` -/
def digitPlus : SItem := .cls Char.isDigit true false

/-- `[^>]*` -/
def notGtStar : SItem := .cls (fun c => c != '>') false false

/-- `[^"]*` -/
def notQuoteStar : SItem := .cls (fun c => c != '"') false false

/-- `[^"]+` -/
def notQuotePlus : SItem := .cls (fun c => c != '"') true false

/-- `[^<]+` -/
def notLtPlus : SItem := .cls (fun c => c != '<') true false

/-- `[^<]*` -/
def notLtStar : SItem := .cls (fun c => c != '<') false false

/-- `.+?` (RE2 `.` does not match a newline). -/
def dotPlusLazy : SItem := .cls (fun c => c != '\n') true true

/-- Shorthand for a literal top-level item. -/
def rlit (s : String) : RItem := .simple (.lit s.data)

/-! ### models.go: the data model -/

/-- Go `type Language string` (called `Lang` here, `Language` is taken by
Mathlib); the values in use are `Spanish = "es"` and `English = "en"`. -/
abbrev Lang := String

/-- `Spanish Language = "es"` -/
def Spanish : Lang := "es"

/-- `English Language = "en"` -/
def English : Lang := "en"

/-- Go `type QuestionType string`; `Radio = "radio"`, `Checkbox = "checkbox"`
(the zero value `""` arises for a block with neither input kind). -/
abbrev QuestionType := String

/-- `Radio QuestionType = "radio"` -/
def Radio : QuestionType := "radio"

/-- `Checkbox QuestionType = "checkbox"` -/
def Checkbox : QuestionType := "checkbox"

/-- Go `Option` (renamed, `Option` is taken in Lean): one answer option. -/
structure QOption where
  Value : String
  Label : String
deriving DecidableEq

/-- Go `Question`.  The Go field `Type` is called `QType` here (`Type` is a
Lean keyword). -/
structure Question where
  ID : String
  Title : String
  QType : QuestionType
  Options : List QOption
  Required : Bool
  ConditionalOn : String
deriving DecidableEq

/-- Go `ConversationSection`. -/
structure ConversationSection where
  Title : String
  Label : String
  Placeholder : String
deriving DecidableEq

/-- Go `Chapter`. -/
structure Chapter where
  Number : Int
  Language : Lang
  Title : String
  Heading : String
  Questions : List Question
  Conversation : ConversationSection
  EmailLabel : String
  EmailPlaceH : String
  SubmitText : String
  ResetText : String
  SuccessMsg : String
  SummaryTitle : String
  ChapterName : String
  HasCustomCSS : Bool
  HasCustomJS : Bool
deriving DecidableEq

/-- `LanguageDefaults`: default strings per language (unlisted Go struct
fields take their zero values). -/
def LanguageDefaults (lang : Lang) : Chapter :=
  if lang = English then
    { Number := 0
      Language := English
      Title := ""
      Heading := "After watching the video, complete this exercise:"
      Questions := []
      Conversation :=
        { Title := "Discuss:"
          Label := ""
          Placeholder := "Write your answer here..." }
      EmailLabel := "Email Address"
      EmailPlaceH := "example@email.com"
      SubmitText := "Submit Survey"
      ResetText := "Clear"
      SuccessMsg := "✓ Survey submitted successfully!"
      SummaryTitle := "Summary of your answers"
      ChapterName := ""
      HasCustomCSS := false
      HasCustomJS := false }
  else
    { Number := 0
      Language := Spanish
      Title := ""
      Heading := "Después de ver el video, realiza este ejercicio:"
      Questions := []
      Conversation :=
        { Title := "Conversen:"
          Label := ""
          Placeholder := "Escribe tu respuesta aquí..." }
      EmailLabel := "Correo Electrónico"
      EmailPlaceH := "ejemplo@correo.com"
      SubmitText := "Enviar Encuesta"
      ResetText := "Limpiar"
      SuccessMsg := "✓ ¡Encuesta enviada correctamente!"
      SummaryTitle := "Resumen de tus respuestas"
      ChapterName := ""
      HasCustomCSS := false
      HasCustomJS := false }

/-- `FilePrefix` (renamed with a `Go` suffix like the other helpers). -/
def filePrefixGo (lang : Lang) : String :=
  if lang = English then "chapter" else "capitulo"

/-- `ChapterLabel`. -/
def ChapterLabel (lang : Lang) : String :=
  if lang = English then "Chapter" else "Capítulo"

/-- `TitleSuffix`. -/
def TitleSuffix (lang : Lang) : String :=
  if lang = English then "After watching the video" else "Después de ver el video"

/-! ### generator.go: the encoder -/

/-- `hasCheckboxQuestions`. -/
def hasCheckboxQuestions (ch : Chapter) : Bool :=
  ch.Questions.any fun q => q.QType == Checkbox

/-- `hasConditionalQuestions`. -/
def hasConditionalQuestions (ch : Chapter) : Bool :=
  ch.Questions.any fun q => q.ConditionalOn != ""

/-- Loop body of the radio branch of `generateQuestionHTML` for option `opt`
at 0-based index `i`. -/
def radioOptionHTML (q : Question) (i : Nat) (opt : QOption) : String :=
  let optID := q.ID ++ "_" ++ natToStr (i + 1)
  let requiredAttr := if q.Required && i == 0 then " required" else ""
  "\n                    <div class=\"option\">\n                        <input type=\"radio\" id=\"" ++ optID ++ "\" name=\"" ++ q.ID ++ "\" value=\"" ++ htmlEscapeString opt.Value ++ "\"" ++ requiredAttr ++ ">\n                        <label for=\"" ++ optID ++ "\">" ++ htmlEscapeString opt.Label ++ "</label>\n                    </div>"

/-- Loop body of the checkbox branch of `generateQuestionHTML`. -/
def checkboxOptionHTML (q : Question) (i : Nat) (opt : QOption) : String :=
  let optID := q.ID ++ "_" ++ natToStr (i + 1)
  "\n                    <div class=\"checkbox-option\">\n                        <input type=\"checkbox\" id=\"" ++ optID ++ "\" name=\"" ++ q.ID ++ "\" value=\"" ++ htmlEscapeString opt.Value ++ "\">\n                        <label for=\"" ++ optID ++ "\">" ++ htmlEscapeString opt.Label ++ "</label>\n                    </div>"

/-- `generateQuestionHTML`. -/
def generateQuestionHTML (q : Question) : String :=
  let comment := "\n            <!-- " ++ toUpperGo q.ID ++ " -->"
  let openDiv :=
    if q.ConditionalOn != "" then
      "\n            <div class=\"question-section conditional-section hidden\" id=\"" ++ q.ID ++ "-section\">"
    else
      "\n            <div class=\"question-section\">"
  let titleDiv := "\n                <div class=\"question-title\">" ++ htmlEscapeString q.Title ++ "</div>"
  let body :=
    if q.QType = Radio then
      "\n                <div class=\"options\">" ++
        String.join (q.Options.enum.map fun p => radioOptionHTML q p.1 p.2) ++
        "\n                </div>"
    else if q.QType = Checkbox then
      "\n                <div class=\"checkbox-group\">" ++
        String.join (q.Options.enum.map fun p => checkboxOptionHTML q p.1 p.2) ++
        "\n                </div>"
    else ""
  comment ++ openDiv ++ titleDiv ++ body ++ "\n            </div>"

/-- Loop body of `generateConditionalJS` for one question `q` with non-empty
`ConditionalOn`.  NOTE (faithful to the source): `inputType` is initialized to
`"checkbox"` and the conditional assignment stores `"checkbox"` again, so the
emitted clear-selector always targets checkbox inputs. -/
def conditionalPairJS (ch : Chapter) (q : Question) : String :=
  let parentID := q.ConditionalOn
  let childID := q.ID
  let yesValue := if ch.Language = English then "Yes" else "Si"
  let inputType := "checkbox"
  let inputType := if q.QType = Checkbox then "checkbox" else inputType
  "\n            const " ++ parentID ++ "Radios = document.querySelectorAll(\x27input[name=\"" ++ parentID ++ "\"]\x27);\n            const " ++ childID ++ "Section = document.getElementById(\x27" ++ childID ++ "-section\x27);\n            const " ++ childID ++ "Inputs = document.querySelectorAll(\x27#" ++ childID ++ "-section input[type=\"" ++ inputType ++ "\"]\x27);\n\n            // " ++ toUpperGo parentID ++ " -> " ++ toUpperGo childID ++ " logic\n            " ++ parentID ++ "Radios.forEach(radio => \x7b\n                radio.addEventListener(\x27change\x27, function() \x7b\n                    if (this.value === \x27" ++ yesValue ++ "\x27) \x7b\n                        " ++ childID ++ "Section.classList.remove(\x27hidden\x27);\n                    \x7d else \x7b\n                        " ++ childID ++ "Section.classList.add(\x27hidden\x27);\n                        // Clear " ++ toUpperGo childID ++ " selections\n                        " ++ childID ++ "Inputs.forEach(input => \x7b\n                            input.checked = false;\n                        \x7d);\n                    \x7d\n                \x7d);\n            \x7d);"

/-- `generateConditionalJS`. -/
def generateConditionalJS (ch : Chapter) : String :=
  "\n\n    <script>\n        // Handle conditional questions\n        document.addEventListener(\x27DOMContentLoaded\x27, function() \x7b" ++
    String.join (ch.Questions.map fun q =>
      if q.ConditionalOn = "" then "" else conditionalPairJS ch q) ++
    "\n        \x7d);\n    </script>"

/-- Document head of `generateChapterHTML` (the first `WriteString`). -/
def genHead (ch : Chapter) : String :=
  "<!DOCTYPE html>\n<html lang=\"" ++ ch.Language ++ "\">\n<head>\n    <meta charset=\"UTF-8\">\n    <meta name=\"viewport\" content=\"width=device-width, initial-scale=1.0\">\n    <title>" ++ htmlEscapeString ch.Title ++ "</title>\n    <link rel=\"stylesheet\" href=\"survey.css\">"

/-- The inline checkbox/conditional style block the encoder adds when some
question is a checkbox question. -/
def checkboxCSS : String :=
  "\n    <style>\n        .checkbox-group \x7b\n            display: flex;\n            flex-direction: column;\n            gap: 12px;\n        \x7d\n\n        .checkbox-option \x7b\n            display: flex;\n            align-items: center;\n            padding: 12px;\n            border: 2px solid #e0e0e0;\n            border-radius: 8px;\n            cursor: pointer;\n            transition: all 0.3s ease;\n        \x7d\n\n        .checkbox-option:hover \x7b\n            border-color: #667eea;\n            background-color: #f5f7ff;\n        \x7d\n\n        .checkbox-option input[type=\"checkbox\"] \x7b\n            margin-right: 12px;\n            cursor: pointer;\n            width: 18px;\n            height: 18px;\n        \x7d\n\n        .checkbox-option label \x7b\n            cursor: pointer;\n            flex: 1;\n            color: #333;\n        \x7d\n\n        .checkbox-option input[type=\"checkbox\"]:checked + label \x7b\n            color: #667eea;\n            font-weight: 500;\n        \x7d\n\n        .hidden \x7b\n            display: none;\n        \x7d\n\n        .conditional-section \x7b\n            transition: opacity 0.3s ease;\n        \x7d\n    </style>"

/-- End of head, body open, `<h1>` and form open. -/
def genBodyOpen (ch : Chapter) : String :=
  "\n</head>\n<body>\n    <div class=\"container\">\n        <h1>" ++ htmlEscapeString ch.Heading ++ "</h1>\n        <form id=\"pollForm\">"

/-- The conversation section block. -/
def genConversationSection (ch : Chapter) : String :=
  "\n\n            <!-- Conversation Section -->\n            <div class=\"question-section\">\n                <div class=\"question-title\">" ++ htmlEscapeString ch.Conversation.Title ++ "</div>\n                <div class=\"text-input-section\">\n                    <label for=\"conversation\" style=\"color: #666; font-size: 14px;\">" ++ htmlEscapeString ch.Conversation.Label ++ "</label>\n                    <textarea id=\"conversation\" name=\"conversation\" placeholder=\"" ++ htmlEscapeString ch.Conversation.Placeholder ++ "\" required></textarea>\n                    <div class=\"error-message\" id=\"textError\" style=\"display: none;\"></div>\n                </div>\n            </div>"

/-- The email section block. -/
def genEmailSection (ch : Chapter) : String :=
  "\n\n            <!-- Email Section -->\n            <div class=\"question-section\">\n                <div class=\"question-title\"><label for=\"email\">" ++ htmlEscapeString ch.EmailLabel ++ "</label></div>\n                <div class=\"text-input-section\">\n                    <input type=\"email\" id=\"email\" name=\"email\" placeholder=\"" ++ htmlEscapeString ch.EmailPlaceH ++ "\" required>\n                    <div class=\"error-message\" id=\"emailError\" style=\"display: none;\"></div>\n                </div>\n            </div>"

/-- The fixed reCAPTCHA block. -/
def genRecaptchaSection : String :=
  "\n\n            <!-- reCAPTCHA -->\n            <div class=\"question-section\">\n                <div class=\"g-recaptcha\" data-sitekey=\"6LeyoggsAAAAAAgXzEg9PAC9ypZtr-yyc24cAnN_\"></div>\n                <div class=\"error-message\" id=\"recaptchaError\" style=\"display: none;\"></div>\n            </div>"

/-- The submit/reset button block (closes the form). -/
def genButtons (ch : Chapter) : String :=
  "\n\n            <!-- Buttons -->\n            <div class=\"button-group\">\n                <button type=\"submit\" class=\"submit-btn\" id=\"submitBtn\">" ++ htmlEscapeString ch.SubmitText ++ "</button>\n                <button type=\"reset\" class=\"reset-btn\" id=\"resetBtn\">" ++ htmlEscapeString ch.ResetText ++ "</button>\n            </div>\n        </form>"

/-- The success-message container.  NOTE (faithful to the source): the
message is interpolated raw, without `html.EscapeString`. -/
def genSuccessSection (ch : Chapter) : String :=
  "\n\n        <!-- Success Message -->\n        <div class=\"success-message\" id=\"successMessage\">\n            " ++ ch.SuccessMsg ++ "\n        </div>"

/-- The summary container (closes the page container div). -/
def genSummarySection (ch : Chapter) : String :=
  "\n\n        <!-- Summary Section -->\n        <div class=\"summary-section\" id=\"summarySection\" style=\"display: none;\">\n            <h2 class=\"summary-title\">" ++ htmlEscapeString ch.SummaryTitle ++ "</h2>\n            <div id=\"summaryContent\"></div>\n        </div>\n    </div>"

/-- The `window.surveyQuestions` entry loop of `generateChapterHTML`:
one entry per question, with a trailing comma when more entries follow
(`i < len-1 || ch.Conversation.Label != ""`). -/
def metaEntriesGo (convLabel : String) (total : Nat) :
    List Question → Nat → String
  | [], _ => ""
  | q :: t, i =>
    "\n            " ++ q.ID ++ ": \"" ++ jsEscape q.Title ++ "\"" ++
      (if i < total - 1 || convLabel != "" then "," else "") ++
      metaEntriesGo convLabel total t (i + 1)

/-- The metadata script block: `window.surveyQuestions` and
`window.chapterName`. -/
def genMetadataScript (ch : Chapter) : String :=
  "\n\n    <script>" ++
    (if !hasConditionalQuestions ch then "\n" else "") ++
    "\n        // Define questions for this survey\n        window.surveyQuestions = \x7b" ++
    metaEntriesGo ch.Conversation.Label ch.Questions.length ch.Questions 0 ++
    (if ch.Conversation.Label != "" then
      "\n            conversation: \"" ++ jsEscape ch.Conversation.Label ++ "\""
    else "") ++
    "\n        \x7d;\n\n        // Define the chapter name for this survey\n        window.chapterName = \"" ++ jsEscape ch.ChapterName ++ "\";\n    </script>"

/-- The fixed EmailJS / reCAPTCHA / survey.js footer. -/
def genFooter : String :=
  "\n\n    <!-- EmailJS Library -->\n    <script src=\"https://cdn.jsdelivr.net/npm/emailjs-com@3/dist/email.min.js\"></script>\n    <script>\n        (function() \x7b\n            emailjs.init(\"wZ_Z4F9Y-8CcFzD2g\"); // Replace with your EmailJS public key\n        \x7d)();\n    </script>\n\n    <!-- Google reCAPTCHA v2 -->\n    <script src=\"https://www.google.com/recaptcha/api.js\" async defer></script>\n\n    <script src=\"survey.js?v=20250110005\"></script>\n</body>\n</html>\n"

/-- `generateChapterHTML`: the builder's `WriteString` calls in order. -/
def generateChapterHTML (ch : Chapter) : String :=
  genHead ch ++
    (if hasCheckboxQuestions ch then checkboxCSS else "") ++
    genBodyOpen ch ++
    String.join (ch.Questions.map fun q => "\n" ++ generateQuestionHTML q) ++
    genConversationSection ch ++
    genEmailSection ch ++
    genRecaptchaSection ++
    genButtons ch ++
    genSuccessSection ch ++
    genSummarySection ch ++
    (if hasConditionalQuestions ch then generateConditionalJS ch else "") ++
    genMetadataScript ch ++
    genFooter

/-- `previewChapter` returns the generated HTML (`saveChapter` writes the same
string to disk; the write itself is the caller's I/O). -/
def previewChapter (ch : Chapter) : String :=
  generateChapterHTML ch

/-! ### parser.go: the decoder -/

/-- The pattern of `extractChapterNumber`: `_(\d+)\.html$`. -/
def chapterNumberPat : List RItem :=
  [rlit "_", .grp [digitPlus], rlit ".html", .eos]

/-- `extractChapterNumber`: digit run of the trailing `_<digits>.html`, else
the empty string. -/
def extractChapterNumber (filename : String) : String :=
  match reFindGroup1 chapterNumberPat filename with
  | some m => m
  | none => ""

/-- `extractBetweenTags`. -/
def extractBetweenTags (content openTag closeTag : String) : String :=
  match indexGo content openTag with
  | none => ""
  | some start =>
    let start := start + openTag.data.length
    match indexGoAux closeTag.data (content.data.drop start) 0 with
    | none => ""
    | some e => trimSpaceGo ⟨(content.data.drop start).take e⟩

/-- `decodeHTMLEntities`. -/
def decodeHTMLEntities (s : String) : String :=
  let s := replaceAllGo s "&quot;" "\""
  let s := replaceAllGo s "&amp;" "&"
  let s := replaceAllGo s "&lt;" "<"
  let s := replaceAllGo s "&gt;" ">"
  s

/-- `encodeHTMLEntities`. -/
def encodeHTMLEntities (s : String) : String :=
  let s := replaceAllGo s "&" "&amp;"
  let s := replaceAllGo s "\"" "&quot;"
  let s := replaceAllGo s "<" "&lt;"
  let s := replaceAllGo s ">" "&gt;"
  s

/-- `findConditionalParent`: decrement the numeric part, `""` for `q1`, an
unparsable id, or a number at most 1. -/
def findConditionalParent (qID : String) : String :=
  let numStr := trimPrefixGo qID "q"
  match atoiGo numStr with
  | none => ""
  | some num => if num ≤ 1 then "" else "q" ++ intToStr (num - 1)

/-- The pattern of `chNameRe`: `window\.chapterName\s*=\s*"([^"]+)"`. -/
def chapterNamePat : List RItem :=
  [rlit "window.chapterName", .simple spaceStar, rlit "=", .simple spaceStar,
    rlit "\"", .grp [notQuotePlus], rlit "\""]

/-- The pattern of `questionTitleRe`:
`<div class="question-title">(Q\d+:[^<]+)</div>`. -/
def questionTitlePat : List RItem :=
  [rlit "<div class=\"question-title\">",
    .grp [.lit "Q".data, digitPlus, .lit ":".data, notLtPlus],
    rlit "</div>"]

/-- The pattern of `qIDRe`: `^Q(\d+):` (anchored, used via `matchHere`). -/
def qIDPat : List RItem :=
  [rlit "Q", .grp [digitPlus], rlit ":"]

/-- The literal `hiddenSectionRe` built for a question id (a metacharacter-free
pattern, so `MatchString` is a substring test). -/
def hiddenSectionMarker (qID : String) : String :=
  "<div class=\"question-section conditional-section hidden\" id=\"" ++ qID ++ "-section\">"

/-- The pattern of `extractRadioOptions`:
`<input type="radio"[^>]*name="<qID>"[^>]*value="([^"]*)"[^>]*>\s*<label[^>]*>([^<]+)</label>`. -/
def radioOptionPat (qID : String) : List RItem :=
  [rlit "<input type=\"radio\"", .simple notGtStar,
    rlit ("name=\"" ++ qID ++ "\""), .simple notGtStar,
    rlit "value=\"", .grp [notQuoteStar], rlit "\"", .simple notGtStar,
    rlit ">", .simple spaceStar, rlit "<label", .simple notGtStar, rlit ">",
    .grp [notLtPlus], rlit "</label>"]

/-- Same with `type="checkbox"`. -/
def checkboxOptionPat (qID : String) : List RItem :=
  [rlit "<input type=\"checkbox\"", .simple notGtStar,
    rlit ("name=\"" ++ qID ++ "\""), .simple notGtStar,
    rlit "value=\"", .grp [notQuoteStar], rlit "\"", .simple notGtStar,
    rlit ">", .simple spaceStar, rlit "<label", .simple notGtStar, rlit ">",
    .grp [notLtPlus], rlit "</label>"]

/-- `extractRadioOptions`. -/
def extractRadioOptions (sec qID : String) : List QOption :=
  (reFindAll (radioOptionPat qID) sec).map fun r =>
    { Value := ⟨r.2.2.headD []⟩, Label := ⟨(r.2.2.drop 1).headD []⟩ }

/-- `extractCheckboxOptions` (the value, unlike the radio one, is entity
decoded). -/
def extractCheckboxOptions (sec qID : String) : List QOption :=
  (reFindAll (checkboxOptionPat qID) sec).map fun r =>
    { Value := decodeHTMLEntities ⟨r.2.2.headD []⟩, Label := ⟨(r.2.2.drop 1).headD []⟩ }

/-- One iteration of the `extractQuestions` loop: build the question for a
`questionTitleRe` match whose section ends at `sectionEnd`; `none` is the
`continue` on an id-less title (unreachable, the title already matched
`Q\d+:`). -/
def questionFromMatch (content : String) (m : Nat × Nat × List (List Char))
    (sectionEnd : Nat) : Option Question :=
  let title : String := ⟨m.2.2.headD []⟩
  match matchHere qIDPat title.data with
  | none => none
  | some r =>
    let qNum : String := ⟨r.2.headD []⟩
    let qID := "q" ++ qNum
    let sec : String := ⟨(content.data.drop m.1).take (sectionEnd - m.1)⟩
    let conditionalOn :=
      if containsGo content (hiddenSectionMarker qID) then findConditionalParent qID
      else ""
    let q : Question :=
      { ID := qID, Title := title, QType := "", Options := [],
        Required := true, ConditionalOn := conditionalOn }
    let q :=
      if containsGo sec "type=\"checkbox\"" then
        { q with QType := Checkbox, Options := extractCheckboxOptions sec qID }
      else if containsGo sec "type=\"radio\"" then
        { q with QType := Radio, Options := extractRadioOptions sec qID }
      else q
    let q := if !containsGo sec "required" then { q with Required := false } else q
    some q

/-- The `extractQuestions` loop over the title matches (each section is
bounded by the next match or the end of the document). -/
def extractQuestionsGo (content : String) :
    List (Nat × Nat × List (List Char)) → List Question
  | [] => []
  | m :: rest =>
    let sectionEnd :=
      match rest with
      | [] => content.data.length
      | m2 :: _ => m2.1
    match questionFromMatch content m sectionEnd with
    | none => extractQuestionsGo content rest
    | some q => q :: extractQuestionsGo content rest

/-- `extractQuestions`. -/
def extractQuestions (content : String) : List Question :=
  extractQuestionsGo content (reFindAll questionTitlePat content)

/-- The pattern of `hiddenRe` in `detectConditionals`:
`id="<sectionID>"[^>]*class="[^"]*hidden[^"]*"`. -/
def hiddenPat (sectionID : String) : List RItem :=
  [rlit ("id=\"" ++ sectionID ++ "\""), .simple notGtStar, rlit "class=\"",
    .simple notQuoteStar, rlit "hidden", .simple notQuoteStar, rlit "\""]

/-- The pattern of `classFirstRe`:
`class="[^"]*hidden[^"]*"[^>]*id="<sectionID>"`. -/
def classFirstPat (sectionID : String) : List RItem :=
  [rlit "class=\"", .simple notQuoteStar, rlit "hidden", .simple notQuoteStar,
    rlit "\"", .simple notGtStar, rlit ("id=\"" ++ sectionID ++ "\"")]

/-- `detectConditionals` (the Go in-place mutation as a map). -/
def detectConditionals (content : String) (questions : List Question) :
    List Question :=
  questions.map fun q =>
    let sectionID := q.ID ++ "-section"
    if reMatch (hiddenPat sectionID) content ||
        reMatch (classFirstPat sectionID) content then
      { q with ConditionalOn := findConditionalParent q.ID }
    else q

/-- The pattern of `convTitleRe`:
`<div class="question-title">((?:Conversen|Discuss|Hablen|Talk)[^<]*)</div>`. -/
def convTitlePat : List RItem :=
  [rlit "<div class=\"question-title\">",
    .grp [.alt ["Conversen".data, "Discuss".data, "Hablen".data, "Talk".data], notLtStar],
    rlit "</div>"]

/-- The pattern of `convLabelRe`:
`<label for="conversation"[^>]*>([^<]+)</label>`. -/
def convLabelPat : List RItem :=
  [rlit "<label for=\"conversation\"", .simple notGtStar, rlit ">",
    .grp [notLtPlus], rlit "</label>"]

/-- The pattern of `convPlaceholderRe`:
`<textarea[^>]*id="conversation"[^>]*placeholder="([^"]+)"`. -/
def convPlaceholderPat : List RItem :=
  [rlit "<textarea", .simple notGtStar, rlit "id=\"conversation\"",
    .simple notGtStar, rlit "placeholder=\"", .grp [notQuotePlus], rlit "\""]

/-- `extractConversation`. -/
def extractConversation (content : String) (lang : Lang) : ConversationSection :=
  let conv := (LanguageDefaults lang).Conversation
  let conv :=
    match reFindGroup1 convTitlePat content with
    | some m => { conv with Title := m }
    | none => conv
  let conv :=
    match reFindGroup1 convLabelPat content with
    | some m => { conv with Label := m }
    | none => conv
  let conv :=
    match reFindGroup1 convPlaceholderPat content with
    | some m => { conv with Placeholder := m }
    | none => conv
  conv

/-- The pattern of `emailLabelRe`: `<label for="email">([^<]+)</label>`. -/
def emailLabelPat : List RItem :=
  [rlit "<label for=\"email\">", .grp [notLtPlus], rlit "</label>"]

/-- The pattern of `emailPlaceholderRe`:
`type="email"[^>]*placeholder="([^"]+)"`. -/
def emailPlaceholderPat : List RItem :=
  [rlit "type=\"email\"", .simple notGtStar, rlit "placeholder=\"",
    .grp [notQuotePlus], rlit "\""]

/-- The pattern of `submitRe`: `class="submit-btn"[^>]*>([^<]+)</button>`. -/
def submitPat : List RItem :=
  [rlit "class=\"submit-btn\"", .simple notGtStar, rlit ">", .grp [notLtPlus],
    rlit "</button>"]

/-- The pattern of `resetRe`: `class="reset-btn"[^>]*>([^<]+)</button>`. -/
def resetPat : List RItem :=
  [rlit "class=\"reset-btn\"", .simple notGtStar, rlit ">", .grp [notLtPlus],
    rlit "</button>"]

/-- The pattern of `successRe`:
`class="success-message"[^>]*>\s*(.+?)\s*</div>`. -/
def successPat : List RItem :=
  [rlit "class=\"success-message\"", .simple notGtStar, rlit ">",
    .simple spaceStar, .grp [dotPlusLazy], .simple spaceStar, rlit "</div>"]

/-- The pattern of `summaryTitleRe`: `class="summary-title">([^<]+)</h2>`. -/
def summaryTitlePat : List RItem :=
  [rlit "class=\"summary-title\">", .grp [notLtPlus], rlit "</h2>"]

/-- `parseChapterFile` on the file's base name and content (reading the file
and `filepath.Base` are the caller's I/O).  `.error` models the one non-nil
error return, the unparsable chapter number. -/
def parseChapterFile (base content : String) (lang : Lang) :
    Except String Chapter :=
  let ch := LanguageDefaults lang
  let ch := { ch with Language := lang }
  let numStr := extractChapterNumber base
  match atoiGo numStr with
  | none => .error ("invalid chapter number in " ++ base)
  | some num =>
    let ch := { ch with Number := num }
    let ch := { ch with Title := extractBetweenTags content "<title>" "</title>" }
    let ch := { ch with Heading := extractBetweenTags content "<h1>" "</h1>" }
    let ch := { ch with HasCustomCSS := containsGo content ".checkbox-group" }
    let ch := { ch with HasCustomJS :=
      (containsGo content "conditional" ||
        containsGo content "classList.remove(\x27hidden\x27)") }
    let ch :=
      match reFindGroup1 chapterNamePat content with
      | some m => { ch with ChapterName := m }
      | none => { ch with ChapterName := ChapterLabel lang ++ " " ++ intToStr num }
    let ch := { ch with Questions := extractQuestions content }
    let ch := { ch with Questions := detectConditionals content ch.Questions }
    let ch := { ch with Conversation := extractConversation content lang }
    let ch :=
      match reFindGroup1 emailLabelPat content with
      | some m => { ch with EmailLabel := m }
      | none => ch
    let ch :=
      match reFindGroup1 emailPlaceholderPat content with
      | some m => { ch with EmailPlaceH := m }
      | none => ch
    let ch :=
      match reFindGroup1 submitPat content with
      | some m => { ch with SubmitText := m }
      | none => ch
    let ch :=
      match reFindGroup1 resetPat content with
      | some m => { ch with ResetText := m }
      | none => ch
    let ch :=
      match reFindGroup1 successPat content with
      | some m => { ch with SuccessMsg := trimSpaceGo m }
      | none => ch
    let ch :=
      match reFindGroup1 summaryTitlePat content with
      | some m => { ch with SummaryTitle := m }
      | none => ch
    .ok ch

/-- `parseChaptersByLanguage` on an explicit file list (the glob over
`<prefix>_*.html` and the reads are the caller's I/O; each pair is a file's
base name and content).  A file whose parse fails is reported on stderr in the
source and skipped; the loop continues. -/
def parseChaptersByLanguage (files : List (String × String)) (lang : Lang) :
    List Chapter :=
  match files with
  | [] => []
  | (name, content) :: t =>
    match parseChapterFile name content lang with
    | .error _ => parseChaptersByLanguage t lang
    | .ok ch => ch :: parseChaptersByLanguage t lang

/-! ### main.go: the remove-question edit -/

/-- `replaceQuestionPrefix` of main.go (named with a `Go` suffix): rewrite a
leading `Q...:` title prefix to `Q<newNum>:`. -/
def replaceQuestionPrefixGo (title : String) (newNum : Nat) : String :=
  match indexGo title ":" with
  | none => title
  | some idx =>
    let pre : String := ⟨title.data.take idx⟩
    if hasPrefixGo pre "Q" then "Q" ++ natToStr newNum ++ ⟨title.data.drop idx⟩
    else title

/-- The inner loop of `removeQuestion`'s renumbering: rewrite every
`ConditionalOn` equal to `oldID` to `newID`. -/
def rewriteRefs (qs : List Question) (oldID newID : String) : List Question :=
  qs.map fun q =>
    if q.ConditionalOn == oldID then { q with ConditionalOn := newID } else q

/-- The outer loop of `removeQuestion`'s renumbering.  Go iterates an index
`i` over the already-shortened slice; `prev` holds the processed questions
(indices below `i`) and `rest` the unprocessed ones.  Each iteration assigns
id `q<i+1>`, rewrites every `ConditionalOn` equal to the old id (in the whole
slice, processed or not, including the current question), then rewrites the
title prefix of the current question. -/
def renumLoopF (fuel : Nat) (i : Nat) (prev rest : List Question) :
    List Question :=
  match fuel, rest with
  | _, [] => prev
  | 0, _ => prev
  | fuel + 1, q :: rest2 =>
    let oldID := q.ID
    let newID := "q" ++ natToStr (i + 1)
    let q1 := { q with ID := newID }
    let prevR := rewriteRefs prev oldID newID
    let q2 :=
      if q1.ConditionalOn == oldID then { q1 with ConditionalOn := newID } else q1
    let restR := rewriteRefs rest2 oldID newID
    let q3 := { q2 with Title := replaceQuestionPrefixGo q2.Title (i + 1) }
    renumLoopF fuel (i + 1) (prevR ++ [q3]) restR

/-- The loop with its fuel instantiated; `rewriteRefs` preserves lengths, so
the fuel is never short. -/
def renumLoop (i : Nat) (prev rest : List Question) : List Question :=
  renumLoopF rest.length i prev rest

/-- `removeQuestion` after a valid selection: delete the question at 0-based
`idx` and renumber (the CLI validates the selection first and leaves the
chapter unchanged on an invalid one). -/
def removeQuestion (ch : Chapter) (idx : Nat) : Chapter :=
  { ch with Questions := renumLoop 0 [] (ch.Questions.eraseIdx idx) }

/-! Specification helpers for the renumbering loop (not part of the source;
used only to state and prove its characterization). -/

/-- The record the loop appends for the question processed at position `i`
(definitionally the body of `renumLoopF` for that question). -/
def renumProcessed (q : Question) (i : Nat) : Question :=
  let newID := "q" ++ natToStr (i + 1)
  let q1 : Question := { q with ID := newID }
  let q2 : Question :=
    if q1.ConditionalOn == q.ID then { q1 with ConditionalOn := newID } else q1
  { q2 with Title := replaceQuestionPrefixGo q2.Title (i + 1) }

/-- The id-rewriting steps the loop performs from position `i` on: the `t`-th
remaining question maps its current id to `q<i+t+1>`. -/
def renumSteps (i : Nat) : List Question → List (String × String)
  | [] => []
  | q :: rest => (q.ID, "q" ++ natToStr (i + 1)) :: renumSteps (i + 1) rest

/-- Apply a list of id-rewriting steps, in order, to one reference value. -/
def applySteps (steps : List (String × String)) (v : String) : String :=
  steps.foldl (fun v p => if v == p.1 then p.2 else v) v

/-- The `(id, title)` view the loop produces for the remaining questions. -/
def expectedIdTitle (i : Nat) : List Question → List (String × String)
  | [] => []
  | q :: rest =>
    ("q" ++ natToStr (i + 1), replaceQuestionPrefixGo q.Title (i + 1)) ::
      expectedIdTitle (i + 1) rest

/-- The decrement chain `q<start+1+t> ↦ q<start+t>` of length `len`. -/
def chainSteps (start : Nat) : Nat → List (String × String)
  | 0 => []
  | len + 1 =>
    ("q" ++ natToStr (start + 1), "q" ++ natToStr start) :: chainSteps (start + 1) len

/-! ### Spec-side templates and instrumentation -/

/-- The radio option markup of the specification with an explicit
required-marker hole, used to state which inputs carry the marker. -/
def radioOptionTemplate (q : Question) (i : Nat) (opt : QOption)
    (requiredAttr : String) : String :=
  "\n                    <div class=\"option\">\n                        <input type=\"radio\" id=\"" ++ (q.ID ++ "_" ++ natToStr (i + 1)) ++ "\" name=\"" ++ q.ID ++ "\" value=\"" ++ htmlEscapeString opt.Value ++ "\"" ++ requiredAttr ++ ">\n                        <label for=\"" ++ (q.ID ++ "_" ++ natToStr (i + 1)) ++ "\">" ++ htmlEscapeString opt.Label ++ "</label>\n                    </div>"

/-- The checkbox option markup of the specification (no marker hole). -/
def checkboxOptionTemplate (q : Question) (i : Nat) (opt : QOption) : String :=
  "\n                    <div class=\"checkbox-option\">\n                        <input type=\"checkbox\" id=\"" ++ (q.ID ++ "_" ++ natToStr (i + 1)) ++ "\" name=\"" ++ q.ID ++ "\" value=\"" ++ htmlEscapeString opt.Value ++ "\">\n                        <label for=\"" ++ (q.ID ++ "_" ++ natToStr (i + 1)) ++ "\">" ++ htmlEscapeString opt.Label ++ "</label>\n                    </div>"

/-- Adjacent-pair check: a quote may only follow a backslash. -/
def pairsOK (prev : Char) : List Char → Bool
  | [] => true
  | c :: t => (c != '"' || prev == '\\') && pairsOK c t

/-- Every `"` in the list is immediately preceded by `\`. -/
def quotePreceded (l : List Char) : Bool :=
  match l with
  | [] => true
  | c :: t => c != '"' && pairsOK c t

/-! ### Concrete data for counterexamples and witnesses -/

/-- A question list for the failing round trip: a single always-visible
required radio question. -/
def c1Questions : List Question :=
  [{ ID := "q1", Title := "Q1: ¿Tiene hijos?", QType := Radio,
     Options := [⟨"Si", "Si"⟩, ⟨"No", "No"⟩], Required := true,
     ConditionalOn := "" }]

/-- The C1 failing input: a well-formed Spanish chapter whose title contains
an ampersand. -/
def c1ch : Chapter :=
  { LanguageDefaults Spanish with
    Number := 1
    Title := "A&B"
    ChapterName := "Capítulo 1"
    Conversation := { Title := "Conversen:", Label := "Hablen de algo",
                      Placeholder := "Escribe tu respuesta aquí..." }
    Questions := c1Questions }

/-- The C2 witness chapter: the §8 scenario (q2 conditional on q1, q3
conditional on q2). -/
def c2ch : Chapter :=
  { LanguageDefaults Spanish with
    Number := 3
    Questions :=
      [{ ID := "q1", Title := "Q1: Uno", QType := Radio,
         Options := [⟨"Si", "Si"⟩, ⟨"No", "No"⟩], Required := true,
         ConditionalOn := "" },
       { ID := "q2", Title := "Q2: Dos", QType := Radio,
         Options := [⟨"Si", "Si"⟩, ⟨"No", "No"⟩], Required := true,
         ConditionalOn := "q1" },
       { ID := "q3", Title := "Q3: Tres", QType := Radio,
         Options := [⟨"1", "1"⟩, ⟨"2", "2"⟩], Required := true,
         ConditionalOn := "q2" }] }

/-- The C3 counterexample question: required and conditional at once. -/
def c3q : Question :=
  { ID := "q2", Title := "Q2: Pregunta", QType := Radio,
    Options := [⟨"Si", "Si"⟩, ⟨"No", "No"⟩], Required := true,
    ConditionalOn := "q1" }

/-- The C4 failing input: q2 is a radio question conditional on q1. -/
def c4ch : Chapter :=
  { LanguageDefaults Spanish with
    Number := 2
    Questions :=
      [{ ID := "q1", Title := "Q1: Uno", QType := Radio,
         Options := [⟨"Si", "Si"⟩, ⟨"No", "No"⟩], Required := true,
         ConditionalOn := "" },
       { ID := "q2", Title := "Q2: Dos", QType := Radio,
         Options := [⟨"1", "1"⟩, ⟨"2", "2"⟩], Required := false,
         ConditionalOn := "q1" }] }

/-- A conditional question for the C6 witness. -/
def c6q : Question :=
  { ID := "q3", Title := "Q3: Algo", QType := Checkbox,
    Options := [⟨"A", "A"⟩], Required := false, ConditionalOn := "q2" }

/-- The C7 counterexample: a success message containing markup characters. -/
def c7ch : Chapter :=
  { LanguageDefaults Spanish with
    Number := 1
    SuccessMsg := "<b>&</b>" }

/-- The C9 counterexample: a chapter whose conversation label is empty. -/
def c9ch : Chapter :=
  { LanguageDefaults Spanish with
    Number := 1
    ChapterName := "Capítulo 1"
    Conversation := { Title := "Conversen:", Label := "",
                      Placeholder := "Escribe aquí..." }
    Questions :=
      [{ ID := "q1", Title := "Q1: Pregunta uno", QType := Radio,
         Options := [⟨"Si", "Si"⟩, ⟨"No", "No"⟩], Required := true,
         ConditionalOn := "" }] }

/-- First C10 witness chapter. -/
def c10a : Chapter :=
  { LanguageDefaults Spanish with
    Number := 1
    Title := "Capítulo 1"
    ChapterName := "Capítulo 1"
    Questions := c1Questions }

/-- Second C10 witness chapter: differs from `c10a` exactly in `Number`,
`HasCustomCSS` and `HasCustomJS`. -/
def c10b : Chapter :=
  { c10a with Number := 7, HasCustomCSS := true, HasCustomJS := true }

/-- The markup of a question block after its opening div: title div, option
markup, closing div (shared tail of both C6 cases). -/
def questionBlockTail (q : Question) : String :=
  "\n                <div class=\"question-title\">" ++ htmlEscapeString q.Title ++ "</div>" ++
    (if q.QType = Radio then
      "\n                <div class=\"options\">" ++
        String.join (q.Options.enum.map fun p => radioOptionHTML q p.1 p.2) ++
        "\n                </div>"
    else if q.QType = Checkbox then
      "\n                <div class=\"checkbox-group\">" ++
        String.join (q.Options.enum.map fun p => checkboxOptionHTML q p.1 p.2) ++
        "\n                </div>"
    else "") ++ "\n            </div>"

/-- Separator join (spec-side): the shape of a comma-joined entry list. -/
def joinSep (sep : String) : List String → String
  | [] => ""
  | [e] => e
  | e :: t => e ++ sep ++ joinSep sep t

/-! ### Basic lemmas about the primitives -/

theorem digitsVal_append (xs : List Char) (c : Char) :
    digitsVal (xs ++ [c]) = 10 * digitsVal xs + digitVal c := by
  simp [digitsVal, List.foldl_append]

theorem digitVal_digitChar {d : Nat} (h : d < 10) :
    digitVal (Nat.digitChar d) = d := by
  interval_cases d <;> decide

theorem isDigit_digitChar {d : Nat} (h : d < 10) :
    (Nat.digitChar d).isDigit = true := by
  interval_cases d <;> decide

theorem natDigitsCore_val (fuel : Nat) :
    ∀ n, n < fuel → digitsVal (natDigitsCore fuel n) = n := by
  induction fuel with
  | zero => omega
  | succ fuel ih =>
    intro n hn
    rw [natDigitsCore]
    by_cases h : n < 10
    · simp [h, digitsVal, digitVal_digitChar h]
    · have hd : n / 10 < fuel := by omega
      rw [if_neg h, digitsVal_append, ih _ hd,
        digitVal_digitChar (Nat.mod_lt _ (by omega))]
      omega

theorem natDigits_val (n : Nat) : digitsVal (natDigits n) = n :=
  natDigitsCore_val (n + 1) n (Nat.lt_succ_self n)

theorem natDigitsCore_all_digit (fuel : Nat) :
    ∀ n, ∀ c ∈ natDigitsCore fuel n, c.isDigit = true := by
  induction fuel with
  | zero => simp [natDigitsCore]
  | succ fuel ih =>
    intro n c hc
    rw [natDigitsCore] at hc
    by_cases h : n < 10
    · simp only [if_pos h, List.mem_singleton] at hc
      exact hc ▸ isDigit_digitChar h
    · rw [if_neg h] at hc
      rcases List.mem_append.1 hc with hc | hc
      · exact ih _ c hc
      · simp only [List.mem_singleton] at hc
        exact hc ▸ isDigit_digitChar (Nat.mod_lt _ (by omega))

theorem natDigits_all_digit (n : Nat) :
    ∀ c ∈ natDigits n, c.isDigit = true :=
  natDigitsCore_all_digit (n + 1) n

theorem natDigits_ne_nil (n : Nat) : natDigits n ≠ [] := by
  rw [natDigits, natDigitsCore]
  by_cases h : n < 10 <;> simp [h]

theorem natToStr_inj {a b : Nat} (h : natToStr a = natToStr b) : a = b := by
  have : digitsVal (natDigits a) = digitsVal (natDigits b) := by
    have := congrArg String.data h
    simpa [natToStr] using congrArg digitsVal this
  rwa [natDigits_val, natDigits_val] at this


/-! ### C6: conditional wrapper markers -/

/-- C6: the encoder wraps a question with non-empty `conditionalOn` in a block
carrying the `conditional-section` and `hidden` marker classes and the id
`<questionId>-section`, and wraps a question with empty `conditionalOn` in a
plain `question-section` block with neither marker class and no id. -/
theorem c6_conditional_wrapper (q : Question) :
    (q.ConditionalOn ≠ "" →
      generateQuestionHTML q =
        "\n            <!-- " ++ toUpperGo q.ID ++ " -->" ++
          ("\n            <div class=\"question-section conditional-section hidden\" id=\"" ++
            q.ID ++ "-section\">") ++ questionBlockTail q) ∧
    (q.ConditionalOn = "" →
      generateQuestionHTML q =
        "\n            <!-- " ++ toUpperGo q.ID ++ " -->" ++
          "\n            <div class=\"question-section\">" ++ questionBlockTail q) := by
  constructor
  · intro h
    have hb : (q.ConditionalOn != "") = true := by simpa using h
    simp [generateQuestionHTML, questionBlockTail, hb, String.append_assoc]
  · intro h
    have hb : (q.ConditionalOn != "") = false := by simp [h]
    simp [generateQuestionHTML, questionBlockTail, hb, String.append_assoc]

/-- C6 witness: the conditional wrapper equation instantiated at a concrete
conditional question. -/
theorem c6_conditional_wrapper_witness :
    generateQuestionHTML c6q =
      "\n            <!-- " ++ toUpperGo c6q.ID ++ " -->" ++
        ("\n            <div class=\"question-section conditional-section hidden\" id=\"" ++
          c6q.ID ++ "-section\">") ++ questionBlockTail c6q :=
  (c6_conditional_wrapper c6q).1 (by decide)

/-! ### C10: the encoder ignores Number, HasCustomCSS and HasCustomJS -/

/-- Mapping before `any` composes the predicates. -/
theorem anyOfMap (f : Question → QuestionType × String) (p : QuestionType × String → Bool) :
    ∀ l : List Question, (l.map f).any p = l.any fun a => p (f a) := by
  intro l
  induction l with
  | nil => rfl
  | cons x t ih => simp [ih]

/-- C10: chapters agreeing on everything but `Number`, `HasCustomCSS`,
`HasCustomJS` produce byte-identical HTML; the style-block and
conditional-script gates depend only on the questions' kinds and
`ConditionalOn` fields. -/
theorem c10_encoder_independent (a b : Chapter)
    (hL : a.Language = b.Language) (hT : a.Title = b.Title)
    (hH : a.Heading = b.Heading) (hQ : a.Questions = b.Questions)
    (hC : a.Conversation = b.Conversation)
    (hEL : a.EmailLabel = b.EmailLabel) (hEP : a.EmailPlaceH = b.EmailPlaceH)
    (hS : a.SubmitText = b.SubmitText) (hR : a.ResetText = b.ResetText)
    (hM : a.SuccessMsg = b.SuccessMsg) (hST : a.SummaryTitle = b.SummaryTitle)
    (hN : a.ChapterName = b.ChapterName) :
    generateChapterHTML a = generateChapterHTML b ∧
    (∀ c d : Chapter,
      c.Questions.map (fun q => (q.QType, q.ConditionalOn)) =
        d.Questions.map (fun q => (q.QType, q.ConditionalOn)) →
      hasCheckboxQuestions c = hasCheckboxQuestions d ∧
        hasConditionalQuestions c = hasConditionalQuestions d) := by
  constructor
  · simp only [generateChapterHTML, genHead, checkboxCSS, genBodyOpen,
      genConversationSection, genEmailSection, genRecaptchaSection, genButtons,
      genSuccessSection, genSummarySection, genMetadataScript, genFooter,
      generateConditionalJS, conditionalPairJS, hasCheckboxQuestions,
      hasConditionalQuestions, hL, hT, hH, hQ, hC, hEL, hEP, hS, hR, hM, hST, hN]
  · intro c d h
    have hcb : c.Questions.any (fun q => q.QType == Checkbox) =
        d.Questions.any (fun q => q.QType == Checkbox) := by
      have h2 := congrArg (List.any · (fun p : QuestionType × String => p.1 == Checkbox)) h
      simp only [anyOfMap] at h2
      simpa using h2
    have hcd : c.Questions.any (fun q => q.ConditionalOn != "") =
        d.Questions.any (fun q => q.ConditionalOn != "") := by
      have h2 := congrArg (List.any · (fun p : QuestionType × String => p.2 != "")) h
      simp only [anyOfMap] at h2
      simpa using h2
    exact ⟨hcb, hcd⟩

/-- C10 witness: two concrete chapters differing exactly in `Number`,
`HasCustomCSS` and `HasCustomJS` encode identically. -/
theorem c10_encoder_independent_witness :
    generateChapterHTML c10a = generateChapterHTML c10b ∧
    c10a.Number ≠ c10b.Number ∧
    c10a.HasCustomCSS ≠ c10b.HasCustomCSS ∧
    c10a.HasCustomJS ≠ c10b.HasCustomJS :=
  ⟨(c10_encoder_independent c10a c10b rfl rfl rfl rfl rfl rfl rfl rfl rfl rfl rfl rfl).1,
    by decide, by decide, by decide⟩

/-! ### C3: the required marker -/

set_option maxRecDepth 40000 in
/-- C3 counterexample: a question that is both required and conditional is
emitted with the required marker, contradicting the claimed
required-and-not-conditional condition. -/
theorem c3_required_counterexample :
    c3q.Required = true ∧ c3q.ConditionalOn = "q1" ∧
    containsGo (generateQuestionHTML c3q) " required" = true := by
  decide

/-- C3 (amended): a radio option input carries the required marker iff the
question's required flag is set and it is the first option — `conditionalOn`
plays no role; checkbox options never carry it. -/
theorem c3_required_marker (q : Question) (i : Nat) (opt : QOption) :
    (q.Required = true ∧ i = 0 →
      radioOptionHTML q i opt = radioOptionTemplate q i opt " required") ∧
    (¬(q.Required = true ∧ i = 0) →
      radioOptionHTML q i opt = radioOptionTemplate q i opt "") ∧
    checkboxOptionHTML q i opt = checkboxOptionTemplate q i opt := by
  refine ⟨?_, ?_, ?_⟩
  · rintro ⟨hr, hi⟩
    subst hi
    simp [radioOptionHTML, radioOptionTemplate, hr]
  · intro h
    have hb : (q.Required && i == 0) = false := by
      by_cases hq : q.Required = true
      · by_cases hi : i = 0
        · exact absurd ⟨hq, hi⟩ h
        · simp [hi]
      · simp [Bool.not_eq_true] at hq
        simp [hq]
    simp [radioOptionHTML, radioOptionTemplate, hb]
  · simp [checkboxOptionHTML, checkboxOptionTemplate]

/-- C3 witness: the amended marker rule at the concrete counterexample
question (required, conditional, first option). -/
theorem c3_required_marker_witness :
    radioOptionHTML c3q 0 ⟨"Si", "Si"⟩ =
      radioOptionTemplate c3q 0 ⟨"Si", "Si"⟩ " required" ∧
    c3q.ConditionalOn ≠ "" :=
  ⟨(c3_required_marker c3q 0 ⟨"Si", "Si"⟩).1 ⟨rfl, rfl⟩, by decide⟩

/-! ### C4: the conditional-clear selector -/

set_option maxRecDepth 100000 in
/-- C4 (code bug): for a radio child question the emitted clear selector
still targets checkbox inputs — `generateConditionalJS` initializes
`inputType` to "checkbox" and its lone conditional assignment stores
"checkbox" again, so radio selections of a re-hidden question are never
cleared. -/
theorem c4_clear_selector_bug :
    c4ch.Questions.map Question.QType = [Radio, Radio] ∧
    c4ch.Questions.map Question.ConditionalOn = ["", "q1"] ∧
    containsGo (generateConditionalJS c4ch) "input[type=\"checkbox\"]" = true ∧
    containsGo (generateConditionalJS c4ch) "input[type=\"radio\"]" = false := by
  decide

/-! ### C7: escaping of interpolated text -/

set_option maxRecDepth 400000 in
set_option maxHeartbeats 2000000 in
/-- C7 counterexample: the success message is interpolated into the document
raw — markup characters in it reach the output unescaped. -/
theorem c7_success_not_escaped :
    c7ch.SuccessMsg = "<b>&</b>" ∧
    containsGo (generateChapterHTML c7ch) "<b>&</b>" = true ∧
    htmlEscapeString "<b>&</b>" ≠ "<b>&</b>" := by
  decide

/-- Characters produced by the HTML escaper never include raw markup
characters. -/
theorem htmlEscapeString_safe (s : String) :
    ∀ c ∈ (htmlEscapeString s).data, c ≠ '<' ∧ c ≠ '>' ∧ c ≠ '"' := by
  have hchar : ∀ c', ∀ c ∈ escapeCharGo c', c ≠ '<' ∧ c ≠ '>' ∧ c ≠ '"' := by
    intro c' c hc
    unfold escapeCharGo at hc
    split_ifs at hc with h1 h2 h3 h4 h5
    · fin_cases hc <;> decide
    · fin_cases hc <;> decide
    · fin_cases hc <;> decide
    · fin_cases hc <;> decide
    · fin_cases hc <;> decide
    · simp only [List.mem_singleton] at hc
      subst hc
      exact ⟨h3, h4, h5⟩
  intro c hc
  simp only [htmlEscapeString, List.mem_flatten, List.mem_map] at hc
  obtain ⟨l, ⟨c', _, rfl⟩, hcl⟩ := hc
  exact hchar c' c hcl

/-- The quote-escaping pass leaves every quote preceded by a backslash. -/
theorem replaceSkip_quote_ok (t : List Char) :
    quotePreceded (replaceSkip ['"'] ['\\', '"'] t 0) = true ∧
    ∀ prev, pairsOK prev (replaceSkip ['"'] ['\\', '"'] t 0) = true := by
  induction t with
  | nil => exact ⟨rfl, fun _ => rfl⟩
  | cons a t' ih =>
    by_cases ha : a = '"'
    · subst ha
      have hstep : replaceSkip ['"'] ['\\', '"'] ('"' :: t') 0 =
          '\\' :: '"' :: replaceSkip ['"'] ['\\', '"'] t' 0 := by
        simp [replaceSkip, List.isPrefixOf]
      rw [hstep]
      refine ⟨?_, fun prev => ?_⟩
      · simp [quotePreceded, pairsOK, (ih.2 '"')]
      · simp [pairsOK, (ih.2 '"')]
    · have hstep : replaceSkip ['"'] ['\\', '"'] (a :: t') 0 =
          a :: replaceSkip ['"'] ['\\', '"'] t' 0 := by
        have hpre : List.isPrefixOf ['"'] (a :: t') = false := by
          simp [List.isPrefixOf]
          exact fun h => absurd h.symm ha
        simp [replaceSkip, hpre]
      rw [hstep]
      have hane : (a != '"') = true := by
        simpa using ha
      refine ⟨?_, fun prev => ?_⟩
      · simp [quotePreceded, pairsOK, hane, (ih.2 a)]
      · simp [pairsOK, hane, (ih.2 a)]

/-- Every quote in a metadata string literal is backslash-escaped. -/
theorem jsEscape_quotes (s : String) :
    quotePreceded (jsEscape s).data = true := by
  have := (replaceSkip_quote_ok s.data).1
  simpa [jsEscape, replaceAllGo] using this

/-- C7 (amended): every free-text field the encoder interpolates into markup
(title, heading, question titles, option values and labels, conversation
fields, email label and placeholder, button texts, summary title) passes
through `htmlEscapeString`, whose output has no raw `<`, `>`, `"`; metadata
script text passes through `jsEscape`, which leaves every embedded quote
backslash-escaped.  The exception forced by the counterexample: the success
message is interpolated raw. -/
theorem c7_escaping :
    (∀ s, ∀ c ∈ (htmlEscapeString s).data, c ≠ '<' ∧ c ≠ '>' ∧ c ≠ '"') ∧
    (∀ s, quotePreceded (jsEscape s).data = true) ∧
    (∀ ch : Chapter, genHead ch =
      "<!DOCTYPE html>\n<html lang=\"" ++ ch.Language ++ "\">\n<head>\n    <meta charset=\"UTF-8\">\n    <meta name=\"viewport\" content=\"width=device-width, initial-scale=1.0\">\n    <title>" ++ htmlEscapeString ch.Title ++ "</title>\n    <link rel=\"stylesheet\" href=\"survey.css\">") ∧
    (∀ ch : Chapter, genBodyOpen ch =
      "\n</head>\n<body>\n    <div class=\"container\">\n        <h1>" ++ htmlEscapeString ch.Heading ++ "</h1>\n        <form id=\"pollForm\">") ∧
    (∀ q : Question, ∃ a b, generateQuestionHTML q =
      a ++ htmlEscapeString q.Title ++ b) ∧
    (∀ (q : Question) (i : Nat) (opt : QOption), ∃ a b c,
      radioOptionHTML q i opt =
        a ++ htmlEscapeString opt.Value ++ b ++ htmlEscapeString opt.Label ++ c) ∧
    (∀ (q : Question) (i : Nat) (opt : QOption), ∃ a b c,
      checkboxOptionHTML q i opt =
        a ++ htmlEscapeString opt.Value ++ b ++ htmlEscapeString opt.Label ++ c) ∧
    (∀ ch : Chapter, genConversationSection ch =
      "\n\n            <!-- Conversation Section -->\n            <div class=\"question-section\">\n                <div class=\"question-title\">" ++ htmlEscapeString ch.Conversation.Title ++ "</div>\n                <div class=\"text-input-section\">\n                    <label for=\"conversation\" style=\"color: #666; font-size: 14px;\">" ++ htmlEscapeString ch.Conversation.Label ++ "</label>\n                    <textarea id=\"conversation\" name=\"conversation\" placeholder=\"" ++ htmlEscapeString ch.Conversation.Placeholder ++ "\" required></textarea>\n                    <div class=\"error-message\" id=\"textError\" style=\"display: none;\"></div>\n                </div>\n            </div>") ∧
    (∀ ch : Chapter, genEmailSection ch =
      "\n\n            <!-- Email Section -->\n            <div class=\"question-section\">\n                <div class=\"question-title\"><label for=\"email\">" ++ htmlEscapeString ch.EmailLabel ++ "</label></div>\n                <div class=\"text-input-section\">\n                    <input type=\"email\" id=\"email\" name=\"email\" placeholder=\"" ++ htmlEscapeString ch.EmailPlaceH ++ "\" required>\n                    <div class=\"error-message\" id=\"emailError\" style=\"display: none;\"></div>\n                </div>\n            </div>") ∧
    (∀ ch : Chapter, genButtons ch =
      "\n\n            <!-- Buttons -->\n            <div class=\"button-group\">\n                <button type=\"submit\" class=\"submit-btn\" id=\"submitBtn\">" ++ htmlEscapeString ch.SubmitText ++ "</button>\n                <button type=\"reset\" class=\"reset-btn\" id=\"resetBtn\">" ++ htmlEscapeString ch.ResetText ++ "</button>\n            </div>\n        </form>") ∧
    (∀ ch : Chapter, genSummarySection ch =
      "\n\n        <!-- Summary Section -->\n        <div class=\"summary-section\" id=\"summarySection\" style=\"display: none;\">\n            <h2 class=\"summary-title\">" ++ htmlEscapeString ch.SummaryTitle ++ "</h2>\n            <div id=\"summaryContent\"></div>\n        </div>\n    </div>") ∧
    (∀ ch : Chapter, genSuccessSection ch =
      "\n\n        <!-- Success Message -->\n        <div class=\"success-message\" id=\"successMessage\">\n            " ++ ch.SuccessMsg ++ "\n        </div>") ∧
    (∀ ch : Chapter, ∃ a b, genMetadataScript ch = a ++ jsEscape ch.ChapterName ++ b) := by
  refine ⟨htmlEscapeString_safe, jsEscape_quotes, fun ch => rfl, fun ch => rfl,
    ?_, ?_, ?_, fun ch => rfl, fun ch => rfl, fun ch => rfl, fun ch => rfl,
    fun ch => rfl, ?_⟩
  · intro q
    by_cases hc : q.ConditionalOn = ""
    · have hb : (q.ConditionalOn != "") = false := by simp [hc]
      refine ⟨"\n            <!-- " ++ toUpperGo q.ID ++ " -->" ++
        "\n            <div class=\"question-section\">" ++
        "\n                <div class=\"question-title\">", "</div>" ++
        (if q.QType = Radio then
          "\n                <div class=\"options\">" ++
            String.join (q.Options.enum.map fun p => radioOptionHTML q p.1 p.2) ++
            "\n                </div>"
        else if q.QType = Checkbox then
          "\n                <div class=\"checkbox-group\">" ++
            String.join (q.Options.enum.map fun p => checkboxOptionHTML q p.1 p.2) ++
            "\n                </div>"
        else "") ++ "\n            </div>", ?_⟩
      simp only [generateQuestionHTML]
      rw [hb]
      simp only [Bool.false_eq_true, if_false]
      apply String.ext
      simp only [String.data_append, List.append_assoc]
    · have hb : (q.ConditionalOn != "") = true := by simpa using hc
      refine ⟨"\n            <!-- " ++ toUpperGo q.ID ++ " -->" ++
        ("\n            <div class=\"question-section conditional-section hidden\" id=\"" ++
          q.ID ++ "-section\">") ++
        "\n                <div class=\"question-title\">", "</div>" ++
        (if q.QType = Radio then
          "\n                <div class=\"options\">" ++
            String.join (q.Options.enum.map fun p => radioOptionHTML q p.1 p.2) ++
            "\n                </div>"
        else if q.QType = Checkbox then
          "\n                <div class=\"checkbox-group\">" ++
            String.join (q.Options.enum.map fun p => checkboxOptionHTML q p.1 p.2) ++
            "\n                </div>"
        else "") ++ "\n            </div>", ?_⟩
      simp only [generateQuestionHTML]
      rw [hb]
      simp only [eq_self_iff_true, if_true]
      apply String.ext
      simp only [String.data_append, List.append_assoc]
  · intro q i opt
    refine ⟨"\n                    <div class=\"option\">\n                        <input type=\"radio\" id=\"" ++ (q.ID ++ "_" ++ natToStr (i + 1)) ++ "\" name=\"" ++ q.ID ++ "\" value=\"",
      "\"" ++ (if q.Required && i == 0 then " required" else "") ++ ">\n                        <label for=\"" ++ (q.ID ++ "_" ++ natToStr (i + 1)) ++ "\">",
      "</label>\n                    </div>", ?_⟩
    simp only [radioOptionHTML]
    apply String.ext
    simp only [String.data_append, List.append_assoc]
  · intro q i opt
    refine ⟨"\n                    <div class=\"checkbox-option\">\n                        <input type=\"checkbox\" id=\"" ++ (q.ID ++ "_" ++ natToStr (i + 1)) ++ "\" name=\"" ++ q.ID ++ "\" value=\"",
      "\">\n                        <label for=\"" ++ (q.ID ++ "_" ++ natToStr (i + 1)) ++ "\">",
      "</label>\n                    </div>", ?_⟩
    simp only [checkboxOptionHTML]
    apply String.ext
    simp only [String.data_append, List.append_assoc]
  · intro ch
    refine ⟨"\n\n    <script>" ++ (if !hasConditionalQuestions ch then "\n" else "") ++
      "\n        // Define questions for this survey\n        window.surveyQuestions = \x7b" ++
      metaEntriesGo ch.Conversation.Label ch.Questions.length ch.Questions 0 ++
      (if ch.Conversation.Label != "" then
        "\n            conversation: \"" ++ jsEscape ch.Conversation.Label ++ "\""
      else "") ++
      "\n        \x7d;\n\n        // Define the chapter name for this survey\n        window.chapterName = \"",
      "\";\n    </script>", ?_⟩
    simp only [genMetadataScript]

/-- C7 witness: the escape-safety conjunct applied at a concrete character of
a concrete escaped string. -/
theorem c7_escaping_witness :
    'l' ∈ (htmlEscapeString "<b>").data ∧
    ('l' ≠ '<' ∧ 'l' ≠ '>' ∧ 'l' ≠ '"') :=
  ⟨by decide, c7_escaping.1 "<b>" 'l' (by decide)⟩

/-! ### C9: the metadata script block -/

set_option maxRecDepth 40000 in
/-- C9 counterexample: with an empty conversation label the metadata script
carries no conversation entry at all. -/
theorem c9_conversation_key_missing :
    c9ch.Conversation.Label = "" ∧
    containsGo (genMetadataScript c9ch) "conversation" = false := by
  decide

/-- The survey-questions entry loop joins its entries with commas: with a
pending conversation entry every question entry gets a trailing comma,
otherwise only the entries before the last. -/
theorem metaEntriesGo_joinSep (convLabel : String) :
    ∀ (qs : List Question) (i : Nat),
      metaEntriesGo convLabel (i + qs.length) qs i =
        joinSep ","
          (qs.map fun q => "\n            " ++ q.ID ++ ": \"" ++ jsEscape q.Title ++ "\"") ++
          (if qs ≠ [] ∧ convLabel ≠ "" then "," else "") := by
  intro qs
  induction qs with
  | nil => intro i; simp [metaEntriesGo, joinSep]
  | cons q t ih =>
    intro i
    have harg : i + (q :: t).length = (i + 1) + t.length := by
      simp [List.length_cons]
      omega
    rw [metaEntriesGo, harg, ih (i + 1)]
    cases t with
    | nil =>
      by_cases hcv : convLabel = ""
      · simp [joinSep, hcv, metaEntriesGo]
      · have : (convLabel != "") = true := by simpa using hcv
        simp [joinSep, hcv, this, metaEntriesGo, String.append_assoc]
    | cons q2 t2 =>
      have hcond : (i < (i + 1) + (q2 :: t2).length - 1 || convLabel != "") = true := by
        simp [List.length_cons]
        left
        omega
      rw [hcond]
      by_cases hcv : convLabel = ""
      · simp [joinSep, hcv, String.append_assoc]
      · have hne : (q2 :: t2).map (fun q => "\n            " ++ q.ID ++ ": \"" ++ jsEscape q.Title ++ "\"") ≠ [] := by simp
        simp [joinSep, hcv, String.append_assoc]

/-- Appending a final element to a separator join. -/
theorem joinSep_append_singleton (sep x : String) :
    ∀ es : List String,
      joinSep sep (es ++ [x]) =
        (if es = [] then x else joinSep sep es ++ sep ++ x) := by
  intro es
  induction es with
  | nil => simp [joinSep]
  | cons e t ih =>
    cases t with
    | nil => simp [joinSep]
    | cons e2 t2 =>
      have h1 : joinSep sep ((e :: e2 :: t2) ++ [x]) =
          e ++ sep ++ joinSep sep ((e2 :: t2) ++ [x]) := rfl
      rw [h1, ih]
      simp [joinSep, String.append_assoc]

/-- C9 (amended): the metadata script block assigns `window.surveyQuestions`
one entry per question, keyed by the question's id and mapped to its display
text, with a `conversation` entry exactly when the conversation label is
non-empty, followed by the `window.chapterName` assignment. -/
theorem c9_metadata_script (ch : Chapter) :
    genMetadataScript ch =
      "\n\n    <script>" ++ (if !hasConditionalQuestions ch then "\n" else "") ++
      "\n        // Define questions for this survey\n        window.surveyQuestions = \x7b" ++
      joinSep ","
        ((ch.Questions.map fun q =>
            "\n            " ++ q.ID ++ ": \"" ++ jsEscape q.Title ++ "\"") ++
          (if ch.Conversation.Label ≠ "" then
            ["\n            conversation: \"" ++ jsEscape ch.Conversation.Label ++ "\""]
          else [])) ++
      "\n        \x7d;\n\n        // Define the chapter name for this survey\n        window.chapterName = \"" ++
      jsEscape ch.ChapterName ++ "\";\n    </script>" := by
  unfold genMetadataScript
  rw [show metaEntriesGo ch.Conversation.Label ch.Questions.length ch.Questions 0 =
      metaEntriesGo ch.Conversation.Label (0 + ch.Questions.length) ch.Questions 0 by
    rw [Nat.zero_add], metaEntriesGo_joinSep]
  by_cases hcv : ch.Conversation.Label = ""
  · have hb : (ch.Conversation.Label != "") = false := by simp [hcv]
    rw [hb]
    simp only [Bool.false_eq_true, if_false]
    rw [hcv]
    simp only [ne_eq, eq_self_iff_true, not_true, and_false, if_false]
    apply String.ext
    simp only [String.data_append, List.append_assoc, List.append_nil,
      show ("" : String).data = [] from rfl]
  · have hb : (ch.Conversation.Label != "") = true := by simpa using hcv
    rw [hb]
    simp only [eq_self_iff_true, if_true]
    rw [if_pos hcv, joinSep_append_singleton]
    cases hqs : ch.Questions with
    | nil =>
      simp only [List.map_nil, ne_eq, eq_self_iff_true, not_true, if_true,
        false_and, if_false, joinSep]
      apply String.ext
      simp only [String.data_append, List.append_assoc, List.nil_append,
        show ("" : String).data = [] from rfl]
    | cons q t =>
      have hne : (q :: t).map (fun q =>
          "\n            " ++ q.ID ++ ": \"" ++ jsEscape q.Title ++ "\"") ≠ [] := by
        simp
      rw [if_neg hne]
      have hcd : ((q :: t : List Question) ≠ [] ∧ ch.Conversation.Label ≠ "") := by
        exact ⟨by simp, hcv⟩
      rw [if_pos hcd]
      apply String.ext
      simp only [String.data_append, List.append_assoc]

/-! ### C5: the decoder's parent-resolution convention -/

/-- Parsing a pure digit list within the 64-bit range succeeds with its
value. -/
theorem atoiGoL_digits (l : List Char) (hne : l ≠ [])
    (hall : ∀ c ∈ l, c.isDigit = true) (hbound : digitsVal l ≤ 2 ^ 63 - 1) :
    atoiGoL l = some (Int.ofNat (digitsVal l)) := by
  cases l with
  | nil => exact absurd rfl hne
  | cons c rest =>
    have hcd := hall c (List.mem_cons_self _ _)
    have hcm : ¬ c = '-' := by
      intro hEq
      rw [hEq] at hcd
      exact absurd hcd (by decide)
    have hcp : ¬ c = '+' := by
      intro hEq
      rw [hEq] at hcd
      exact absurd hcd (by decide)
    rw [atoiGoL]
    simp only [if_neg (show ¬(c = '-' ∨ c = '+') from fun h => h.elim hcm hcp)]
    rw [if_neg (by simp [List.isEmpty]),
      if_pos (by simpa [List.all_eq_true] using hall), if_neg hcm, if_pos hbound]
    rfl

/-- `atoiGo` recovers the number rendered by `natToStr` (64-bit range). -/
theorem atoiGo_natToStr {N : Nat} (h : N ≤ 2 ^ 63 - 1) :
    atoiGo (natToStr N) = some (Int.ofNat N) := by
  have : atoiGo (natToStr N) = atoiGoL (natDigits N) := rfl
  rw [this, atoiGoL_digits (natDigits N) (natDigits_ne_nil N)
    (natDigits_all_digit N) (by rw [natDigits_val]; exact h), natDigits_val]

/-- C5: whenever `detectConditionals` marks a question (its id-keyed section
carries the hidden marker classes, in either attribute order), the assigned
parent is `findConditionalParent` of the id, which on `q<N>` is always
`q<N-1>` — independent of the markup wiring and of the parent's kind; on `q1`
or an id whose numeric part does not parse, no parent is assigned. -/
theorem c5_parent_convention :
    (∀ (content : String) (questions : List Question),
      (detectConditionals content questions).map Question.ConditionalOn =
        questions.map fun q =>
          if reMatch (hiddenPat (q.ID ++ "-section")) content ||
              reMatch (classFirstPat (q.ID ++ "-section")) content then
            findConditionalParent q.ID
          else q.ConditionalOn) ∧
    (∀ N : Nat, 2 ≤ N → N ≤ 2 ^ 63 - 1 →
      findConditionalParent ("q" ++ natToStr N) = "q" ++ natToStr (N - 1)) ∧
    findConditionalParent ("q" ++ natToStr 1) = "" ∧
    (∀ id : String, atoiGo (trimPrefixGo id "q") = none →
      findConditionalParent id = "") := by
  refine ⟨?_, ?_, by decide, ?_⟩
  · intro content questions
    induction questions with
    | nil => rfl
    | cons q t ih =>
      simp only [detectConditionals, List.map_cons] at ih ⊢
      rw [ih]
      by_cases hm : (reMatch (hiddenPat (q.ID ++ "-section")) content ||
          reMatch (classFirstPat (q.ID ++ "-section")) content) = true
      · rw [if_pos hm, if_pos hm]
      · rw [if_neg hm, if_neg hm]
  · intro N h2 hb
    have htrim : trimPrefixGo ("q" ++ natToStr N) "q" = natToStr N := by
      have hpre : hasPrefixGo ("q" ++ natToStr N) "q" = true := by
        simp [hasPrefixGo, String.data_append, List.isPrefixOf]
      simp [trimPrefixGo, hpre, String.data_append]
    rw [findConditionalParent, htrim, atoiGo_natToStr hb]
    show (if Int.ofNat N ≤ 1 then "" else "q" ++ intToStr (Int.ofNat N - 1)) =
      "q" ++ natToStr (N - 1)
    have hgt : ¬ (Int.ofNat N ≤ 1) := by
      simp only [Int.ofNat_eq_coe]
      omega
    rw [if_neg hgt]
    have hsub : Int.ofNat N - 1 = Int.ofNat (N - 1) := by
      simp only [Int.ofNat_eq_coe]
      omega
    rw [hsub]
    simp only [intToStr]
    rw [if_neg (show ¬ (Int.ofNat (N - 1) < 0) by omega)]
    simp
  · intro id hnone
    rw [findConditionalParent, hnone]

/-- C5 witness: the decrement convention at `q5`. -/
theorem c5_parent_convention_witness :
    findConditionalParent ("q" ++ natToStr 5) = "q" ++ natToStr 4 :=
  c5_parent_convention.2.1 5 (by decide) (by norm_num)

/-! ### C8: naming failures in batch decoding -/

/-- `takeWhile` of an all-satisfying list followed by a failing head. -/
theorem takeWhile_all_append (p : Char → Bool) (a : Char) (t : List Char)
    (ha : p a = false) :
    ∀ ds : List Char, (∀ c ∈ ds, p c = true) →
      (ds ++ a :: t).takeWhile p = ds := by
  intro ds
  induction ds with
  | nil => intro _; simp [List.takeWhile, ha]
  | cons c r ih =>
    intro hall
    have hc : p c = true := hall c (List.mem_cons_self _ _)
    simp [List.cons_append, List.takeWhile_cons, hc,
      ih fun c hm => hall c (List.mem_cons_of_mem _ hm)]

/-! Equation lemmas for the matcher (its compiled matches do not reduce
definitionally on an abstract subject). -/

theorem isPrefixOf_nil_left (s : List Char) :
    List.isPrefixOf ([] : List Char) s = true := by
  cases s <;> rfl

theorem isPrefixOf_cons_cons (a b : Char) (as bs : List Char) :
    List.isPrefixOf (a :: as) (b :: bs) = ((a == b) && List.isPrefixOf as bs) := rfl

theorem matchSimple_nil (s : List Char) (k : List Char → Option β) :
    matchSimple [] s k = k s := rfl

theorem matchSimple_lit (l : List Char) (rest : List SItem) (s : List Char)
    (k : List Char → Option β) :
    matchSimple (.lit l :: rest) s k =
      if l.isPrefixOf s then matchSimple rest (s.drop l.length) k else none := rfl

theorem matchSimple_cls (p : Char → Bool) (m lz : Bool) (rest : List SItem)
    (s : List Char) (k : List Char → Option β) :
    matchSimple (.cls p m lz :: rest) s k =
      (if (s.takeWhile p).length < (if m then 1 else 0) then none
      else firstSome (fun n => matchSimple rest (s.drop n) k)
        (countsFor (s.takeWhile p).length (if m then 1 else 0) lz)) := rfl

theorem matchR_nil (s : List Char) (k : List Char → List (List Char) → Option β)
    (g : List (List Char)) : matchR [] s k g = k s g := rfl

theorem matchR_simple (it : SItem) (rest : List RItem) (s : List Char)
    (k : List Char → List (List Char) → Option β) (g : List (List Char)) :
    matchR (.simple it :: rest) s k g =
      matchSimple [it] s (fun s2 => matchR rest s2 k g) := rfl

theorem matchR_grp (its : List SItem) (rest : List RItem) (s : List Char)
    (k : List Char → List (List Char) → Option β) (g : List (List Char)) :
    matchR (.grp its :: rest) s k g =
      matchSimple its s (fun s2 =>
        matchR rest s2 k (g ++ [s.take (s.length - s2.length)])) := rfl

theorem matchR_eos (rest : List RItem) (s : List Char)
    (k : List Char → List (List Char) → Option β) (g : List (List Char)) :
    matchR (.eos :: rest) s k g =
      if s.isEmpty then matchR rest s k g else none := rfl

theorem firstSome_cons (f : α → Option β) (a : α) (t : List α) :
    firstSome f (a :: t) =
      (match f a with
      | some r => some r
      | none => firstSome f t) := rfl

/-- The chapter-number pattern matches at an underscore followed by digits
and the html suffix, capturing exactly the digit run. -/
theorem matchHere_chapterNumber (ds : List Char) (hne : ds ≠ [])
    (hall : ∀ c ∈ ds, c.isDigit = true) :
    matchHere chapterNumberPat ('_' :: (ds ++ ".html".data)) =
      some (1 + ds.length + 5, [ds]) := by
  obtain ⟨n, hn⟩ : ∃ n, ds.length = n + 1 := by
    cases ds with
    | nil => exact absurd rfl hne
    | cons c r => exact ⟨r.length, by simp⟩
  have hrun : (ds ++ ".html".data).takeWhile Char.isDigit = ds :=
    takeWhile_all_append Char.isDigit '.' ("html".data) (by decide) ds hall
  have hdrop2 : (ds ++ ".html".data).drop (n + 1) = ".html".data := by
    rw [← hn]
    exact List.drop_left ds _
  have htake2 : (ds ++ ".html".data).take (n + 1) = ds := by
    rw [← hn]
    exact List.take_left ds _
  have hpre : List.isPrefixOf "_".data ('_' :: (ds ++ ".html".data)) = true := by
    rw [show "_".data = ['_'] from rfl, isPrefixOf_cons_cons, isPrefixOf_nil_left]
    decide
  rw [show chapterNumberPat =
    [.simple (.lit "_".data), .grp [digitPlus], rlit ".html", .eos] from rfl]
  rw [matchHere, matchR_simple, matchSimple_lit, hpre, if_pos rfl, matchSimple_nil]
  rw [show ('_' :: (ds ++ ".html".data)).drop ("_".data).length =
    ds ++ ".html".data from rfl]
  rw [matchR_grp, digitPlus, matchSimple_cls, hrun, hn]
  rw [if_neg (by simp)]
  rw [show countsFor (n + 1) (if true = true then 1 else 0) false =
    (n + 1) :: countsDownAux n n from by simp [countsFor, countsDownAux]]
  rw [firstSome_cons, matchSimple_nil, hdrop2]
  have harith : (ds ++ ".html".data).length - (".html".data).length = n + 1 := by
    simp only [List.length_append, hn]
    simp
  simp only [rlit]
  rw [matchR_simple, matchSimple_lit]
  rw [show List.isPrefixOf (".html".data) (".html".data) = true from by decide]
  rw [if_pos rfl]
  rw [show (".html".data).drop ((".html".data)).length = ([] : List Char) from by
    decide]
  rw [matchSimple_nil, matchR_eos]
  rw [show ([] : List Char).isEmpty = true from rfl, if_pos rfl, matchR_nil]
  rw [harith, htake2]
  have hlen : ('_' :: (ds ++ ".html".data)).length = 1 + ds.length + 5 := by
    simp [List.length_append]
    omega
  simp [hlen, hn]

/-- The chapter-number pattern cannot match at a non-underscore position. -/
theorem matchHere_chapterNumber_fail (c : Char) (s : List Char) (hc : c ≠ '_') :
    matchHere chapterNumberPat (c :: s) = none := by
  rw [show chapterNumberPat =
    [.simple (.lit "_".data), .grp [digitPlus], rlit ".html", .eos] from rfl]
  rw [matchHere, matchR_simple, matchSimple_lit]
  rw [show "_".data = ['_'] from rfl, isPrefixOf_cons_cons]
  rw [show (('_' : Char) == c) = false from by
    simpa using fun h => hc h.symm]
  rw [Bool.false_and, if_neg (by simp)]

/-- Scanning `pre ++ "_<digits>.html"` with an underscore-free `pre` finds
the match at the underscore. -/
theorem findFrom_chapterNumber (ds : List Char) (hne : ds ≠ [])
    (hall : ∀ c ∈ ds, c.isDigit = true) :
    ∀ (pre : List Char), '_' ∉ pre → ∀ pos : Nat,
      findFrom chapterNumberPat (pre ++ '_' :: (ds ++ ".html".data)) pos =
        some (pos + pre.length, 1 + ds.length + 5, [ds]) := by
  intro pre
  induction pre with
  | nil =>
    intro _ pos
    rw [List.nil_append, findFrom, matchHere_chapterNumber ds hne hall]
    simp
  | cons c pre2 ih =>
    intro hnin pos
    have hc : c ≠ '_' := fun h => hnin (h ▸ List.mem_cons_self _ _)
    rw [List.cons_append, findFrom, matchHere_chapterNumber_fail c _ hc,
      ih (fun hm => hnin (List.mem_cons_of_mem _ hm)) (pos + 1)]
    simp only [List.length_cons]
    rw [show pos + 1 + pre2.length = pos + (pre2.length + 1) from by omega]

/-- `extractChapterNumber` on a well-formed name recovers the digit run. -/
theorem extractChapterNumber_canonical (pre ds : List Char)
    (hpre : '_' ∉ pre) (hne : ds ≠ [])
    (hall : ∀ c ∈ ds, c.isDigit = true) :
    extractChapterNumber ⟨pre ++ '_' :: (ds ++ ".html".data)⟩ = ⟨ds⟩ := by
  rw [extractChapterNumber, reFindGroup1, reFind]
  rw [show (⟨pre ++ '_' :: (ds ++ ".html".data)⟩ : String).data =
    pre ++ '_' :: (ds ++ ".html".data) from rfl]
  rw [findFrom_chapterNumber ds hne hall pre hpre 0]
  rfl

/-- The decoder fails exactly when the filename's number does not parse. -/
theorem parseChapterFile_error_iff (base content : String) (lang : Lang) :
    (parseChapterFile base content lang).toOption = none ↔
      atoiGo (extractChapterNumber base) = none := by
  cases h : atoiGo (extractChapterNumber base) with
  | none => simp [parseChapterFile, h, Except.toOption]
  | some v => simp [parseChapterFile, h, Except.toOption]

/-- The batch loop keeps every file that parses and skips the rest. -/
theorem parseChaptersByLanguage_filterMap (files : List (String × String))
    (lang : Lang) :
    parseChaptersByLanguage files lang =
      files.filterMap fun f => (parseChapterFile f.1 f.2 lang).toOption := by
  induction files with
  | nil => rfl
  | cons f t ih =>
    obtain ⟨name, content⟩ := f
    cases h : parseChapterFile name content lang with
    | error e => simp [parseChaptersByLanguage, h, ih, List.filterMap_cons, Except.toOption]
    | ok ch => simp [parseChaptersByLanguage, h, ih, List.filterMap_cons, Except.toOption]

set_option maxRecDepth 100000 in
/-- C8 counterexample: `capitulo_0.html` does not encode a valid positive
chapter number, yet the decoder accepts it with chapter number 0. -/
theorem c8_zero_accepted :
    (parseChapterFile "capitulo_0.html" "" Spanish).map Chapter.Number =
      Except.ok (Int.ofNat 0) := by
  rfl

/-- C8 (amended): a file fails decoding for naming reasons exactly when the
trailing digit run of its name is absent or out of 64-bit range; the batch
keeps every file that parses, in order, and skips the failures without
aborting; any name `<prefix>_<digits>.html` with an underscore-free prefix
and in-range digits — zero included — is accepted with that number; an
out-of-range digit run is rejected. -/
theorem c8_naming_policy :
    (∀ (base content : String) (lang : Lang),
      (parseChapterFile base content lang).toOption = none ↔
        atoiGo (extractChapterNumber base) = none) ∧
    (∀ (files : List (String × String)) (lang : Lang),
      parseChaptersByLanguage files lang =
        files.filterMap fun f => (parseChapterFile f.1 f.2 lang).toOption) ∧
    (∀ (pre ds : List Char) (content : String) (lang : Lang),
      '_' ∉ pre → ds ≠ [] → (∀ c ∈ ds, c.isDigit = true) →
      digitsVal ds ≤ 2 ^ 63 - 1 →
      (parseChapterFile ⟨pre ++ '_' :: (ds ++ ".html".data)⟩ content lang).map
        Chapter.Number = Except.ok (Int.ofNat (digitsVal ds))) ∧
    parseChapterFile "capitulo_99999999999999999999.html" "" Spanish =
      Except.error "invalid chapter number in capitulo_99999999999999999999.html" := by
  refine ⟨parseChapterFile_error_iff, parseChaptersByLanguage_filterMap, ?_, ?_⟩
  · intro pre ds content lang hpre hne hall hbound
    have hnum : atoiGo (extractChapterNumber ⟨pre ++ '_' :: (ds ++ ".html".data)⟩) =
        some (Int.ofNat (digitsVal ds)) := by
      rw [extractChapterNumber_canonical pre ds hpre hne hall]
      exact atoiGoL_digits ds hne hall hbound
    simp only [parseChapterFile, hnum, Except.map]
    repeat' split
    all_goals rfl
  · rfl

/-- C8 witness: the acceptance conjunct at the concrete name
`capitulo_07.html`. -/
theorem c8_naming_policy_witness :
    (parseChapterFile ⟨"capitulo".data ++ '_' :: ("07".data ++ ".html".data)⟩
      "" Spanish).map Chapter.Number = Except.ok (Int.ofNat 7) := by
  have h := c8_naming_policy.2.2.1 "capitulo".data "07".data "" Spanish
    (by decide) (by decide) (by decide) (by decide)
  have h2 : digitsVal "07".data = 7 := by decide
  rw [h2] at h
  exact h

/-! ### C2: renumbering after question removal -/

theorem applySteps_nil (v : String) : applySteps [] v = v := rfl

theorem applySteps_cons (p : String × String) (ss : List (String × String))
    (v : String) :
    applySteps (p :: ss) v = applySteps ss (if v == p.1 then p.2 else v) := rfl

theorem applySteps_append (a b : List (String × String)) (v : String) :
    applySteps (a ++ b) v = applySteps b (applySteps a v) := by
  simp [applySteps, List.foldl_append]

theorem rewriteRefs_idTitle (o n : String) (qs : List Question) :
    (rewriteRefs qs o n).map (fun q => (q.ID, q.Title)) =
      qs.map fun q => (q.ID, q.Title) := by
  induction qs with
  | nil => rfl
  | cons q t ih =>
    simp only [rewriteRefs, List.map_cons] at ih ⊢
    rw [ih]
    by_cases h : (q.ConditionalOn == o) = true
    · rw [if_pos h]
    · rw [if_neg h]

theorem renumSteps_rewriteRefs (o n : String) :
    ∀ (qs : List Question) (i : Nat),
      renumSteps i (rewriteRefs qs o n) = renumSteps i qs := by
  intro qs
  induction qs with
  | nil => intro i; rfl
  | cons q t ih =>
    intro i
    simp only [rewriteRefs, List.map_cons, renumSteps] at ih ⊢
    rw [ih]
    by_cases h : (q.ConditionalOn == o) = true
    · rw [if_pos h]
    · rw [if_neg h]

theorem expectedIdTitle_rewriteRefs (o n : String) :
    ∀ (qs : List Question) (i : Nat),
      expectedIdTitle i (rewriteRefs qs o n) = expectedIdTitle i qs := by
  intro qs
  induction qs with
  | nil => intro i; rfl
  | cons q t ih =>
    intro i
    simp only [rewriteRefs, List.map_cons, expectedIdTitle] at ih ⊢
    rw [ih]
    by_cases h : (q.ConditionalOn == o) = true
    · rw [if_pos h]
    · rw [if_neg h]

theorem rewriteRefs_conds (o n : String) (ss : List (String × String)) :
    ∀ qs : List Question,
      (rewriteRefs qs o n).map (fun q => applySteps ss q.ConditionalOn) =
        qs.map fun q => applySteps ((o, n) :: ss) q.ConditionalOn := by
  intro qs
  induction qs with
  | nil => rfl
  | cons q t ih =>
    simp only [rewriteRefs, List.map_cons] at ih ⊢
    rw [ih, applySteps_cons]
    by_cases h : (q.ConditionalOn == o) = true
    · rw [if_pos h, if_pos h]
    · rw [if_neg h, if_neg h]

theorem renumLoopF_step (fuel i : Nat) (prev : List Question) (q : Question)
    (rest2 : List Question) :
    renumLoopF (fuel + 1) i prev (q :: rest2) =
      renumLoopF fuel (i + 1)
        (rewriteRefs prev q.ID ("q" ++ natToStr (i + 1)) ++ [renumProcessed q i])
        (rewriteRefs rest2 q.ID ("q" ++ natToStr (i + 1))) := rfl

theorem renumProcessed_ID (q : Question) (i : Nat) :
    (renumProcessed q i).ID = "q" ++ natToStr (i + 1) := by
  simp only [renumProcessed]
  split <;> rfl

theorem renumProcessed_Title (q : Question) (i : Nat) :
    (renumProcessed q i).Title = replaceQuestionPrefixGo q.Title (i + 1) := by
  simp only [renumProcessed]
  split <;> rfl

theorem renumProcessed_ConditionalOn (q : Question) (i : Nat) :
    (renumProcessed q i).ConditionalOn =
      if q.ConditionalOn == q.ID then "q" ++ natToStr (i + 1)
      else q.ConditionalOn := by
  simp only [renumProcessed]
  split <;> rfl

/-- Full characterization of the renumbering loop: every processed question
gets the positional id and rewritten title prefix, and every
`ConditionalOn` — processed or not — receives the whole sequence of
id-rewriting steps in iteration order. -/
theorem renumLoopF_spec :
    ∀ (fuel : Nat) (rest prev : List Question) (i : Nat),
      rest.length = fuel →
      (renumLoopF fuel i prev rest).map (fun q => (q.ID, q.Title)) =
        prev.map (fun q => (q.ID, q.Title)) ++ expectedIdTitle i rest ∧
      (renumLoopF fuel i prev rest).map Question.ConditionalOn =
        (prev ++ rest).map fun q =>
          applySteps (renumSteps i rest) q.ConditionalOn := by
  intro fuel
  induction fuel with
  | zero =>
    intro rest prev i hlen
    have : rest = [] := List.eq_nil_of_length_eq_zero hlen
    subst this
    simp [renumLoopF, expectedIdTitle, applySteps, renumSteps]
  | succ fuel ih =>
    intro rest prev i hlen
    cases rest with
    | nil => simp at hlen
    | cons q rest2 =>
      have hlen2 :
          (rewriteRefs rest2 q.ID ("q" ++ natToStr (i + 1))).length = fuel := by
        simp only [rewriteRefs, List.length_map]
        simpa using hlen
      rw [renumLoopF_step]
      constructor
      · rw [(ih _ _ (i + 1) hlen2).1, expectedIdTitle_rewriteRefs,
          List.map_append, rewriteRefs_idTitle]
        rw [show expectedIdTitle i (q :: rest2) =
          ("q" ++ natToStr (i + 1), replaceQuestionPrefixGo q.Title (i + 1)) ::
            expectedIdTitle (i + 1) rest2 from rfl]
        rw [List.append_assoc]
        congr 1
        rw [List.map_cons, List.map_nil, renumProcessed_ID, renumProcessed_Title]
        rfl
      · rw [(ih _ _ (i + 1) hlen2).2, renumSteps_rewriteRefs]
        rw [show renumSteps i (q :: rest2) =
          (q.ID, "q" ++ natToStr (i + 1)) :: renumSteps (i + 1) rest2 from rfl]
        rw [List.append_assoc, List.map_append, List.map_append, List.map_append,
          List.map_cons, rewriteRefs_conds, rewriteRefs_conds]
        congr 1
        rw [List.map_cons, List.map_nil, renumProcessed_ConditionalOn,
          applySteps_cons]
        rfl

theorem qappend_inj (a b : Nat) (h : "q" ++ natToStr a = "q" ++ natToStr b) :
    a = b := by
  apply natToStr_inj
  have h2 := congrArg String.data h
  simp only [String.data_append] at h2
  apply String.ext
  exact List.cons_injective h2

theorem applySteps_cons2 (a b : String) (ss : List (String × String))
    (v : String) :
    applySteps ((a, b) :: ss) v = applySteps ss (if v == a then b else v) := rfl

theorem applySteps_of_id :
    ∀ (ss : List (String × String)), (∀ p ∈ ss, p.1 = p.2) →
      ∀ v, applySteps ss v = v := by
  intro ss
  induction ss with
  | nil => intro _ v; rfl
  | cons p t ih =>
    intro h v
    rw [applySteps_cons]
    have ht := ih fun q hq => h q (List.mem_cons_of_mem p hq)
    have h1 := h p (List.mem_cons_self p t)
    by_cases hb : (v == p.1) = true
    · rw [hb]
      simp only [eq_self_iff_true, if_true]
      rw [ht p.2, ← h1]
      exact (eq_of_beq hb).symm
    · rw [Bool.not_eq_true] at hb
      rw [hb]
      simp only [Bool.false_eq_true, if_false]
      exact ht v

theorem applySteps_chain_low :
    ∀ (len start k : Nat), k ≤ start →
      applySteps (chainSteps start len) ("q" ++ natToStr k) =
        "q" ++ natToStr k := by
  intro len
  induction len with
  | zero => intro start k _; rfl
  | succ len ih =>
    intro start k h
    rw [show chainSteps start (len + 1) =
      ("q" ++ natToStr (start + 1), "q" ++ natToStr start) ::
        chainSteps (start + 1) len from rfl, applySteps_cons2]
    by_cases hb : ("q" ++ natToStr k == "q" ++ natToStr (start + 1)) = true
    · exact absurd (qappend_inj _ _ (eq_of_beq hb)) (by omega)
    · rw [Bool.not_eq_true] at hb
      rw [hb]
      simp only [Bool.false_eq_true, if_false]
      exact ih (start + 1) k (by omega)

theorem applySteps_chain_act :
    ∀ (len start k : Nat), start < k → k ≤ start + len →
      applySteps (chainSteps start len) ("q" ++ natToStr k) =
        "q" ++ natToStr (k - 1) := by
  intro len
  induction len with
  | zero => intro start k h1 h2; omega
  | succ len ih =>
    intro start k h1 h2
    rw [show chainSteps start (len + 1) =
      ("q" ++ natToStr (start + 1), "q" ++ natToStr start) ::
        chainSteps (start + 1) len from rfl, applySteps_cons2]
    by_cases hb : ("q" ++ natToStr k == "q" ++ natToStr (start + 1)) = true
    · have hk : k = start + 1 := qappend_inj _ _ (eq_of_beq hb)
      rw [hb]
      simp only [eq_self_iff_true, if_true]
      rw [applySteps_chain_low len (start + 1) start (by omega)]
      rw [show k - 1 = start from by omega]
    · rw [Bool.not_eq_true] at hb
      rw [hb]
      simp only [Bool.false_eq_true, if_false]
      have hk : k ≠ start + 1 := by
        intro hc
        rw [hc] at hb
        simp at hb
      exact ih (start + 1) k (by omega) (by omega)

theorem renumSteps_append :
    ∀ (a b : List Question) (i : Nat),
      renumSteps i (a ++ b) = renumSteps i a ++ renumSteps (i + a.length) b := by
  intro a
  induction a with
  | nil => intro b i; rfl
  | cons q t ih =>
    intro b i
    rw [show (q :: t) ++ b = q :: (t ++ b) from rfl]
    rw [show renumSteps i (q :: (t ++ b)) =
      (q.ID, "q" ++ natToStr (i + 1)) :: renumSteps (i + 1) (t ++ b) from rfl]
    rw [ih b (i + 1)]
    rw [show renumSteps i (q :: t) =
      (q.ID, "q" ++ natToStr (i + 1)) :: renumSteps (i + 1) t from rfl]
    rw [List.cons_append]
    rw [show i + (q :: t).length = i + 1 + t.length from by
      simp [List.length_cons]; omega]

theorem renumSteps_id_mem :
    ∀ (qs : List Question) (i : Nat),
      (∀ t (ht : t < qs.length),
        (qs.get ⟨t, ht⟩).ID = "q" ++ natToStr (i + t + 1)) →
      ∀ p ∈ renumSteps i qs, p.1 = p.2 := by
  intro qs
  induction qs with
  | nil => intro i _ p hp; simp [renumSteps] at hp
  | cons q t ih =>
    intro i h p hp
    rw [show renumSteps i (q :: t) =
      (q.ID, "q" ++ natToStr (i + 1)) :: renumSteps (i + 1) t from rfl] at hp
    rcases List.mem_cons.mp hp with h1 | h1
    · rw [h1]
      have h0 := h 0 (by simp)
      simpa using h0
    · refine ih (i + 1) ?_ p h1
      intro t2 ht2
      have h2 := h (t2 + 1) (by simpa using Nat.succ_lt_succ ht2)
      simp only [List.get_cons_succ] at h2
      rw [show i + (t2 + 1) + 1 = i + 1 + t2 + 1 from by omega] at h2
      exact h2

theorem renumSteps_chain :
    ∀ (qs : List Question) (i : Nat),
      (∀ t (ht : t < qs.length),
        (qs.get ⟨t, ht⟩).ID = "q" ++ natToStr (i + t + 2)) →
      renumSteps i qs = chainSteps (i + 1) qs.length := by
  intro qs
  induction qs with
  | nil => intro i _; rfl
  | cons q t ih =>
    intro i h
    rw [show renumSteps i (q :: t) =
      (q.ID, "q" ++ natToStr (i + 1)) :: renumSteps (i + 1) t from rfl]
    rw [show chainSteps (i + 1) (q :: t).length =
      ("q" ++ natToStr (i + 2), "q" ++ natToStr (i + 1)) ::
        chainSteps (i + 2) t.length from rfl]
    have h0 : q.ID = "q" ++ natToStr (i + 2) := h 0 (by simp)
    rw [h0]
    have ht := ih (i + 1) ?_
    · rw [ht]
    · intro t2 ht2
      have h2 := h (t2 + 1) (by simpa using Nat.succ_lt_succ ht2)
      simp only [List.get_cons_succ] at h2
      rw [show i + (t2 + 1) + 2 = i + 1 + t2 + 2 from by omega] at h2
      exact h2

theorem expectedIdTitle_length :
    ∀ (qs : List Question) (i : Nat),
      (expectedIdTitle i qs).length = qs.length := by
  intro qs
  induction qs with
  | nil => intro i; rfl
  | cons q t ih => intro i; simp only [expectedIdTitle, List.length_cons, ih]

theorem expectedIdTitle_get :
    ∀ (qs : List Question) (i j : Nat) (hj : j < (expectedIdTitle i qs).length)
      (hj2 : j < qs.length),
      (expectedIdTitle i qs).get ⟨j, hj⟩ =
        ("q" ++ natToStr (i + j + 1),
          replaceQuestionPrefixGo ((qs.get ⟨j, hj2⟩).Title) (i + j + 1)) := by
  intro qs
  induction qs with
  | nil => intro i j hj hj2; simp at hj2
  | cons q t ih =>
    intro i j hj hj2
    cases j with
    | zero => rfl
    | succ j =>
      have hj3 : j < (expectedIdTitle (i + 1) t).length := by
        simpa [expectedIdTitle, expectedIdTitle_length] using hj
      have hj4 : j < t.length := by simpa using hj2
      have := ih (i + 1) j hj3 hj4
      rw [show (expectedIdTitle i (q :: t)).get ⟨j + 1, hj⟩ =
        (expectedIdTitle (i + 1) t).get ⟨j, hj3⟩ from rfl]
      rw [this]
      rw [show i + (j + 1) + 1 = i + 1 + j + 1 from by omega]
      rfl

theorem mapGetAux {α β : Type} (f : α → β) (l : List α) (m : List β)
    (h : l.map f = m) (j : Nat) (hj : j < l.length) (hj2 : j < m.length) :
    f (l.get ⟨j, hj⟩) = m.get ⟨j, hj2⟩ := by
  subst h
  simp [List.get_eq_getElem, List.getElem_map]

/-- C2: removing the question at 1-based position `p` from a chapter with
canonical ids `q1..qn` yields `n - 1` questions whose ids are `q1..q(n-1)` in
document order, whose titles have their numeric prefix rewritten to the new
1-based position, and whose `ConditionalOn` references to a surviving old id
`qk` with `k > p` are rewritten to `q(k-1)` (references to ids `qk` with
`k ≤ p` are left unchanged). -/
theorem c2_renumbering (ch : Chapter) (p : Nat) (hp1 : 1 ≤ p)
    (hpn : p ≤ ch.Questions.length)
    (hids : ∀ t (ht : t < ch.Questions.length),
      (ch.Questions.get ⟨t, ht⟩).ID = "q" ++ natToStr (t + 1)) :
    (removeQuestion ch (p - 1)).Questions.length = ch.Questions.length - 1 ∧
    (∀ j (hj : j < (removeQuestion ch (p - 1)).Questions.length),
      ((removeQuestion ch (p - 1)).Questions.get ⟨j, hj⟩).ID =
        "q" ++ natToStr (j + 1)) ∧
    (∀ j (hj : j < (removeQuestion ch (p - 1)).Questions.length)
        (hj2 : j < (ch.Questions.eraseIdx (p - 1)).length),
      ((removeQuestion ch (p - 1)).Questions.get ⟨j, hj⟩).Title =
        replaceQuestionPrefixGo
          (((ch.Questions.eraseIdx (p - 1)).get ⟨j, hj2⟩).Title) (j + 1)) ∧
    (∀ j (hj : j < (removeQuestion ch (p - 1)).Questions.length)
        (hj2 : j < (ch.Questions.eraseIdx (p - 1)).length) (k : Nat),
      p < k → k ≤ ch.Questions.length →
      ((ch.Questions.eraseIdx (p - 1)).get ⟨j, hj2⟩).ConditionalOn =
        "q" ++ natToStr k →
      ((removeQuestion ch (p - 1)).Questions.get ⟨j, hj⟩).ConditionalOn =
        "q" ++ natToStr (k - 1)) ∧
    (∀ j (hj : j < (removeQuestion ch (p - 1)).Questions.length)
        (hj2 : j < (ch.Questions.eraseIdx (p - 1)).length) (k : Nat),
      k ≤ p →
      ((ch.Questions.eraseIdx (p - 1)).get ⟨j, hj2⟩).ConditionalOn =
        "q" ++ natToStr k →
      ((removeQuestion ch (p - 1)).Questions.get ⟨j, hj⟩).ConditionalOn =
        "q" ++ natToStr k) := by
  have hres : (removeQuestion ch (p - 1)).Questions =
      renumLoopF (ch.Questions.eraseIdx (p - 1)).length 0 []
        (ch.Questions.eraseIdx (p - 1)) := rfl
  have hspec := renumLoopF_spec (ch.Questions.eraseIdx (p - 1)).length
    (ch.Questions.eraseIdx (p - 1)) [] 0 rfl
  have hspec1 : (removeQuestion ch (p - 1)).Questions.map
      (fun q => (q.ID, q.Title)) =
      expectedIdTitle 0 (ch.Questions.eraseIdx (p - 1)) := by
    rw [hres]
    have h1 := hspec.1
    simpa using h1
  have hspec2 : (removeQuestion ch (p - 1)).Questions.map
      Question.ConditionalOn =
      (ch.Questions.eraseIdx (p - 1)).map (fun q =>
        applySteps (renumSteps 0 (ch.Questions.eraseIdx (p - 1)))
          q.ConditionalOn) := by
    rw [hres]
    have h2 := hspec.2
    simpa using h2
  have hplt : p - 1 < ch.Questions.length := by omega
  have herasel : (ch.Questions.eraseIdx (p - 1)).length =
      ch.Questions.length - 1 := List.length_eraseIdx_of_lt hplt
  have hlenres : (removeQuestion ch (p - 1)).Questions.length =
      (ch.Questions.eraseIdx (p - 1)).length := by
    have := congrArg List.length hspec2
    simpa using this
  have herase : ch.Questions.eraseIdx (p - 1) =
      ch.Questions.take (p - 1) ++ ch.Questions.drop p := by
    rw [List.eraseIdx_eq_take_drop_succ]
    rw [show p - 1 + 1 = p from by omega]
  have htakel : (ch.Questions.take (p - 1)).length = p - 1 := by
    rw [List.length_take]
    omega
  have hdropl : (ch.Questions.drop p).length = ch.Questions.length - p := by
    rw [List.length_drop]
  have hidsteps : ∀ pr ∈ renumSteps 0 (ch.Questions.take (p - 1)),
      pr.1 = pr.2 := by
    apply renumSteps_id_mem
    intro t ht
    have ht2 : t < ch.Questions.length := by
      rw [List.length_take] at ht
      omega
    have hg : (ch.Questions.take (p - 1)).get ⟨t, ht⟩ =
        ch.Questions.get ⟨t, ht2⟩ := by
      simp [List.get_eq_getElem, List.getElem_take]
    rw [hg, hids t ht2]
    rw [show 0 + t + 1 = t + 1 from by omega]
  have hchain : renumSteps (p - 1) (ch.Questions.drop p) =
      chainSteps p (ch.Questions.drop p).length := by
    have hcc := renumSteps_chain (ch.Questions.drop p) (p - 1) ?_
    · rw [hcc, show p - 1 + 1 = p from by omega]
    · intro t ht
      have ht2 : p + t < ch.Questions.length := by
        rw [List.length_drop] at ht
        omega
      have hg : (ch.Questions.drop p).get ⟨t, ht⟩ =
          ch.Questions.get ⟨p + t, ht2⟩ := by
        simp [List.get_eq_getElem, List.getElem_drop]
      rw [hg, hids (p + t) ht2]
      rw [show p - 1 + t + 2 = p + t + 1 from by omega]
  have hsteps : renumSteps 0 (ch.Questions.eraseIdx (p - 1)) =
      renumSteps 0 (ch.Questions.take (p - 1)) ++
        chainSteps p (ch.Questions.drop p).length := by
    rw [herase, renumSteps_append, htakel]
    rw [show 0 + (p - 1) = p - 1 from by omega]
    rw [hchain]
  have happ : ∀ v, applySteps
      (renumSteps 0 (ch.Questions.eraseIdx (p - 1))) v =
      applySteps (chainSteps p (ch.Questions.drop p).length) v := by
    intro v
    rw [hsteps, applySteps_append, applySteps_of_id _ hidsteps v]
  have hpair : ∀ (j : Nat)
      (hj : j < (removeQuestion ch (p - 1)).Questions.length)
      (hj2 : j < (ch.Questions.eraseIdx (p - 1)).length),
      (((removeQuestion ch (p - 1)).Questions.get ⟨j, hj⟩).ID,
        ((removeQuestion ch (p - 1)).Questions.get ⟨j, hj⟩).Title) =
      ("q" ++ natToStr (j + 1),
        replaceQuestionPrefixGo
          (((ch.Questions.eraseIdx (p - 1)).get ⟨j, hj2⟩).Title) (j + 1)) := by
    intro j hj hj2
    have hje : j <
        (expectedIdTitle 0 (ch.Questions.eraseIdx (p - 1))).length := by
      rw [expectedIdTitle_length]
      exact hj2
    have h1 := mapGetAux (fun q => (q.ID, q.Title)) _ _ hspec1 j hj hje
    rw [expectedIdTitle_get _ 0 j hje hj2] at h1
    rw [show (0 : Nat) + j + 1 = j + 1 from by omega] at h1
    exact h1
  have hcondgen : ∀ (j : Nat)
      (hj : j < (removeQuestion ch (p - 1)).Questions.length)
      (hj2 : j < (ch.Questions.eraseIdx (p - 1)).length),
      ((removeQuestion ch (p - 1)).Questions.get ⟨j, hj⟩).ConditionalOn =
        applySteps (chainSteps p (ch.Questions.drop p).length)
          (((ch.Questions.eraseIdx (p - 1)).get ⟨j, hj2⟩).ConditionalOn) := by
    intro j hj hj2
    have hjm : j < ((ch.Questions.eraseIdx (p - 1)).map (fun q =>
        applySteps (renumSteps 0 (ch.Questions.eraseIdx (p - 1)))
          q.ConditionalOn)).length := by
      rw [List.length_map]
      exact hj2
    have h1 := mapGetAux Question.ConditionalOn _ _ hspec2 j hj hjm
    have h2 := mapGetAux (fun q => applySteps
        (renumSteps 0 (ch.Questions.eraseIdx (p - 1))) q.ConditionalOn)
      (ch.Questions.eraseIdx (p - 1)) _ rfl j hj2 hjm
    rw [h1, ← h2]
    exact happ _
  refine ⟨?_, ?_, ?_, ?_, ?_⟩
  · rw [hlenres, herasel]
  · intro j hj
    have hj2 : j < (ch.Questions.eraseIdx (p - 1)).length := by
      rw [← hlenres]
      exact hj
    exact congrArg Prod.fst (hpair j hj hj2)
  · intro j hj hj2
    exact congrArg Prod.snd (hpair j hj hj2)
  · intro j hj hj2 k hk1 hk2 hcond
    rw [hcondgen j hj hj2, hcond]
    apply applySteps_chain_act
    · exact hk1
    · rw [hdropl]
      omega
  · intro j hj hj2 k hk1 hcond
    rw [hcondgen j hj hj2, hcond]
    exact applySteps_chain_low _ p k hk1

theorem c2_renumbering_witness :
    (1 ≤ 2 ∧ 2 ≤ c2ch.Questions.length ∧
      ∀ t (ht : t < c2ch.Questions.length),
        (c2ch.Questions.get ⟨t, ht⟩).ID = "q" ++ natToStr (t + 1)) ∧
    (removeQuestion c2ch 1).Questions.length = c2ch.Questions.length - 1 :=
  ⟨⟨by decide, by decide, by decide⟩,
    (c2_renumbering c2ch 2 (by decide) (by decide) (by decide)).1⟩

set_option maxRecDepth 400000 in
set_option maxHeartbeats 2000000 in
/-- C1: the round trip is not the identity on chapters satisfying the data
model invariants.  On `c1ch` (canonical ids, non-empty options, no
conditionals) the encoder HTML-escapes the title, but the decoder reads the
escaped text back without unescaping it, so the decoded title is
`A&amp;B` while the original is `A&B`. -/
theorem c1_round_trip_title :
    (parseChapterFile "capitulo_01.html" (generateChapterHTML c1ch)
        Spanish).map Chapter.Title = Except.ok "A&amp;B" ∧
    c1ch.Title = "A&B" := ⟨by rfl, rfl⟩
